import Mathlib

/-!
Verification of the k8s-security-scanner core against its specification.

The Python source is shallowly embedded:
* Python `str` is modelled as `List Char` (named `Str` below), with
  structurally recursive primitives mirroring the `str` methods the code
  uses (`upper`, `lower`, `in` (substring), `startswith`, `replace`,
  `split`, slicing).  All inputs in this code base are ASCII.
* Finding dictionaries (built only by `BaseScanner.create_finding`) become
  the `Finding` structure.  The free-prose `description` and `remediation`
  entries are omitted from the model: no verified property reads them.
  The value masking helper `_mask_value`, whose output the source only
  interpolates into the description prose, is embedded as its own function.
* Optional / missing fields become `Option`; Python truthiness tests are
  expanded at each use site (`None`/`""`/`[]`/`{}` are falsy, objects are
  truthy).
* `SecurityScorer` accumulates `total_deductions` in Python floats
  (IEEE-754 binary64), and the embedding models that arithmetic exactly
  for the non-negative values the scorer handles: a finite double is
  stored as its integer number of `2 ^ (-1074)` units (the subnormal
  quantum, of which every non-negative finite double is an exact natural
  multiple), each operation rounds its exact result to a 53-bit
  significand (nearest, ties to even) and overflows to `Fl.inf` at
  `2 ^ 1024`, and the multiplier literals 1.2 / 1.3 / 1.5 take their
  parsed double values.  The accumulated float total genuinely differs
  from exact decimal arithmetic: 8*1.2 + 1*1.2 + 1*1.2 sums to
  11.999999999999998… in doubles, so `int()` yields 11 where exact
  arithmetic yields 12, and the embedding reproduces the float results.
* The `KeyError` that `severity_counts[severity] += 1` raises on a severity
  outside the four canonical names is modelled by `Option`: the scorer
  returns `none` exactly where the Python function raises, as does the
  `OverflowError` of `int()` on an infinite total.
-/

set_option maxRecDepth 40000

/-- Python `str`, modelled as its list of characters. -/
abbrev Str := List Char

/-- ASCII upper-casing of one character (Python `str.upper`, ASCII range). -/
def upChar (c : Char) : Char :=
  if 97 ≤ c.toNat ∧ c.toNat ≤ 122 then Char.ofNat (c.toNat - 32) else c

/-- ASCII lower-casing of one character (Python `str.lower`, ASCII range). -/
def lowChar (c : Char) : Char :=
  if 65 ≤ c.toNat ∧ c.toNat ≤ 90 then Char.ofNat (c.toNat + 32) else c

/-- Python `s.upper()`. -/
def strUpper (s : Str) : Str := s.map upChar

/-- Python `s.lower()`. -/
def strLower (s : Str) : Str := s.map lowChar

/-- Python `s.startswith(p)`: `p` is a prefix of `s`. -/
def startsWith : Str → Str → Bool
  | _, [] => true
  | [], _ :: _ => false
  | c :: s, d :: p => c == d && startsWith s p

/-- Python `pat in s`: `pat` occurs as a contiguous substring of `s`. -/
def hasSub : Str → Str → Bool
  | [], pat => startsWith [] pat
  | c :: rest, pat => startsWith (c :: rest) pat || hasSub rest pat

/-- `stripSub pat s` removes `pat` from the front of `s`, or `none`. -/
def stripSub : Str → Str → Option Str
  | [], s => some s
  | _ :: _, [] => none
  | c :: p, d :: s => if c == d then stripSub p s else none

/-- Fuel-indexed worker for `replaceAll` (fuel bounds the scan length). -/
def replaceAllAux (pat rep : Str) : Nat → Str → Str
  | _, [] => []
  | 0, s => s
  | fuel + 1, c :: rest =>
    match stripSub pat (c :: rest) with
    | some rem => rep ++ replaceAllAux pat rep fuel rem
    | none => c :: replaceAllAux pat rep fuel rest

/-- Python `s.replace(pat, rep)` for non-empty `pat`: replaces every
non-overlapping occurrence, scanning left to right. -/
def replaceAll (s pat rep : Str) : Str :=
  if pat = [] then s else replaceAllAux pat rep s.length s

/-- Python `s.split(sep)` for a one-character separator. -/
def splitOnChar (sep : Char) : Str → List Str
  | [] => [[]]
  | c :: rest =>
    if c == sep then [] :: splitOnChar sep rest
    else
      match splitOnChar sep rest with
      | [] => [[c]]
      | h :: t => (c :: h) :: t

/-- Python `sep.join(parts)`. -/
def joinSep (sep : Str) : List Str → Str
  | [] => []
  | [s] => s
  | s :: rest => s ++ sep ++ joinSep sep rest

/-- Python `d.get(k, default)` on a string-keyed dict, modelled as an
association list in insertion order. -/
def dictGetD {α : Type} (d : List (Str × α)) (k : Str) (default : α) : α :=
  match d.find? (fun kv => kv.1 = k) with
  | some kv => kv.2
  | none => default

/-- Python `d.get(k)` (`None` when the key is absent). -/
def dictGet {α : Type} (d : List (Str × α)) (k : Str) : Option α :=
  (d.find? (fun kv => kv.1 = k)).map (fun kv => kv.2)

/-- Truthiness of an optional Python string (`None` and `""` are falsy). -/
def pyTruthyStr : Option Str → Bool
  | none => false
  | some s => !s.isEmpty

/-! ## The consumed Pod shape (external, read-only data model) -/

/-- `securityContext.capabilities` of a container. -/
structure Capabilities where
  add : Option (List Str)
deriving DecidableEq

/-- A container-level `securityContext`. -/
structure SecurityContext where
  run_as_user : Option Int
  run_as_non_root : Option Bool
  privileged : Option Bool
  allow_privilege_escalation : Option Bool
  read_only_root_filesystem : Option Bool
  capabilities : Option Capabilities
deriving DecidableEq

/-- The pod-level `securityContext` (only `runAsUser` is consumed). -/
structure PodSecurityContext where
  run_as_user : Option Int
deriving DecidableEq

/-- One entry of a container's `env`.  `value_from` is true when the
variable's value comes from a `valueFrom` reference object. -/
structure EnvVar where
  name : Str
  value : Option Str
  value_from : Bool
deriving DecidableEq

/-- `resources.limits` / `resources.requests`: a dict with the queried keys
`cpu` and `memory`, kept as an association list so that the Python
truthiness of an empty dict stays observable. -/
structure Resources where
  limits : Option (List (Str × Str))
  requests : Option (List (Str × Str))
deriving DecidableEq

/-- A container of a pod (the fields the scanners consume). -/
structure Container where
  name : Str
  image : Str
  security_context : Option SecurityContext
  resources : Option Resources
  env : Option (List EnvVar)
deriving DecidableEq

/-- `pod.metadata` (`ns` stands for the source's `namespace`, a Lean
keyword). -/
structure PodMeta where
  name : Str
  ns : Str
deriving DecidableEq

/-- `pod.spec` (the fields the scanners consume). -/
structure PodSpec where
  containers : List Container
  security_context : Option PodSecurityContext
deriving DecidableEq

/-- A structurally valid pod object. -/
structure Pod where
  metadata : PodMeta
  spec : PodSpec
deriving DecidableEq

/-! ## Finding (`BaseScanner.create_finding`) -/

/-- The finding dictionary built by `BaseScanner.create_finding`.  The
free-prose `description` and `remediation` entries are omitted (no claim
reads them); every other key is kept. -/
structure Finding where
  scanner : Str
  severity : Str
  pod_name : Str
  ns : Str
  container_name : Str
  issue : Str
  compliance : List Str
  category : Str
deriving DecidableEq

/-- `BaseScanner.create_finding` (minus the omitted prose fields). -/
def create_finding (scanner severity pod_name ns container_name issue : Str)
    (compliance : List Str) (category : Str) : Finding :=
  { scanner := scanner, severity := severity, pod_name := pod_name, ns := ns,
    container_name := container_name, issue := issue, compliance := compliance,
    category := category }

/-- The canonical severity names. -/
def S_CRITICAL : Str := "CRITICAL".data
def S_HIGH : Str := "HIGH".data
def S_MEDIUM : Str := "MEDIUM".data
def S_LOW : Str := "LOW".data

/-! ## RootUserScanner -/

/-- `RootUserScanner._create_root_finding`; the `reason` argument only feeds
the omitted description prose. -/
def _create_root_finding (pod_name ns container_name _reason : Str) : Finding :=
  create_finding ("RootUserScanner".data) S_CRITICAL pod_name ns container_name
    ("Container running as root user".data)
    [("CIS-5.2.6".data), ("PCI-DSS-2.2.5".data), ("NIST-800-190".data)]
    ("pod_security".data)

/-- The body of the per-container loop of `RootUserScanner.scan`. -/
def rootUserCheckContainer (pod_sc : Option PodSecurityContext)
    (pod_name ns : Str) (container : Container) : List Finding :=
  match container.security_context with
  | some sc =>
    if sc.run_as_user = some 0 then
      [_create_root_finding pod_name ns container.name
        ("Explicitly running as root (runAsUser: 0)".data)]
    else if sc.run_as_non_root = none ∨ sc.run_as_non_root = some false then
      let pod_run_as_user : Option Int :=
        match pod_sc with
        | some psc => psc.run_as_user
        | none => none
      if pod_run_as_user = none ∨ pod_run_as_user = some 0 then
        [_create_root_finding pod_name ns container.name
          ("Not enforcing non-root user (runAsNonRoot not set)".data)]
      else []
    else []
  | none =>
    [_create_root_finding pod_name ns container.name
      ("No security context defined (defaults to root)".data)]

/-- `RootUserScanner.scan`. -/
def rootUserScan (pod : Pod) : List Finding :=
  pod.spec.containers.flatMap
    (rootUserCheckContainer pod.spec.security_context pod.metadata.name pod.metadata.ns)

/-! ## PrivilegedScanner -/

/-- `PrivilegedScanner._create_privileged_finding`. -/
def _create_privileged_finding (pod_name ns container_name : Str) : Finding :=
  create_finding ("PrivilegedScanner".data) S_CRITICAL pod_name ns container_name
    ("Container running in privileged mode".data)
    [("CIS-5.2.1".data), ("PCI-DSS-2.2".data), ("NIST-800-190".data)]
    ("pod_security".data)

/-- `PrivilegedScanner.scan` (`privileged` is truthy only when `True`). -/
def privilegedScan (pod : Pod) : List Finding :=
  pod.spec.containers.flatMap (fun container =>
    match container.security_context with
    | some sc =>
      if sc.privileged = some true then
        [_create_privileged_finding pod.metadata.name pod.metadata.ns container.name]
      else []
    | none => [])

/-! ## PrivilegeEscalationScanner -/

/-- `PrivilegeEscalationScanner._create_finding_esc`. -/
def _create_finding_esc (pod_name ns container_name _reason : Str) : Finding :=
  create_finding ("PrivilegeEscalationScanner".data) S_HIGH pod_name ns container_name
    ("Privilege escalation allowed".data)
    [("CIS-5.2.5".data), ("PCI-DSS-2.2.4".data), ("NIST-800-190".data)]
    ("pod_security".data)

/-- `PrivilegeEscalationScanner.scan`. -/
def privilegeEscalationScan (pod : Pod) : List Finding :=
  pod.spec.containers.flatMap (fun container =>
    match container.security_context with
    | some sc =>
      match sc.allow_privilege_escalation with
      | some true =>
        [_create_finding_esc pod.metadata.name pod.metadata.ns container.name
          ("Explicitly allows privilege escalation".data)]
      | none =>
        if sc.privileged = some true then
          [_create_finding_esc pod.metadata.name pod.metadata.ns container.name
            ("Privileged container (implicitly allows escalation)".data)]
        else
          [_create_finding_esc pod.metadata.name pod.metadata.ns container.name
            ("allowPrivilegeEscalation not explicitly set to false".data)]
      | some false => []
    | none =>
      [_create_finding_esc pod.metadata.name pod.metadata.ns container.name
        ("No security context (defaults allow escalation)".data)])

/-! ## ReadOnlyFilesystemScanner -/

/-- `ReadOnlyFilesystemScanner._create_readonly_finding`; the reason derived
from `explicitly_false` only feeds the omitted description prose. -/
def _create_readonly_finding (pod_name ns container_name : Str)
    (_explicitly_false : Bool) : Finding :=
  create_finding ("ReadOnlyFilesystemScanner".data) S_MEDIUM pod_name ns container_name
    ("Root filesystem is writable".data)
    [("CIS-5.2.6".data), ("NIST-800-190".data), ("PCI-DSS-2.2.5".data)]
    ("pod_security".data)

/-- `ReadOnlyFilesystemScanner.scan`. -/
def readOnlyFilesystemScan (pod : Pod) : List Finding :=
  pod.spec.containers.flatMap (fun container =>
    match container.security_context with
    | some sc =>
      if sc.read_only_root_filesystem = none ∨ sc.read_only_root_filesystem = some false then
        [_create_readonly_finding pod.metadata.name pod.metadata.ns container.name
          (sc.read_only_root_filesystem = some false)]
      else []
    | none =>
      [_create_readonly_finding pod.metadata.name pod.metadata.ns container.name false])

/-! ## CPULimitsScanner -/

/-- `CPULimitsScanner._create_cpu_finding`. -/
def _create_cpu_finding (pod_name ns container_name _reason : Str) : Finding :=
  create_finding ("CPULimitsScanner".data) S_HIGH pod_name ns container_name
    ("Missing CPU limit".data)
    [("CIS-5.2.7".data), ("PCI-DSS-2.2".data), ("Resource Management Best Practices".data)]
    ("resource_management".data)

/-- `CPULimitsScanner.scan`.  `container.resources` is an object (truthy when
present); `resources.limits` is a dict (an empty dict is falsy). -/
def cpuLimitsScan (pod : Pod) : List Finding :=
  pod.spec.containers.flatMap (fun container =>
    match container.resources with
    | some resources =>
      match resources.limits with
      | some limits =>
        if limits ≠ [] then
          if dictGet limits ("cpu".data) = none then
            [_create_cpu_finding pod.metadata.name pod.metadata.ns container.name
              ("CPU limit not defined".data)]
          else []
        else
          [_create_cpu_finding pod.metadata.name pod.metadata.ns container.name
            ("No resource limits section".data)]
      | none =>
        [_create_cpu_finding pod.metadata.name pod.metadata.ns container.name
          ("No resource limits section".data)]
    | none =>
      [_create_cpu_finding pod.metadata.name pod.metadata.ns container.name
        ("No resources defined".data)])

/-! ## MemoryLimitsScanner -/

/-- `MemoryLimitsScanner._create_memory_finding`. -/
def _create_memory_finding (pod_name ns container_name _reason : Str) : Finding :=
  create_finding ("MemoryLimitsScanner".data) S_HIGH pod_name ns container_name
    ("Missing memory limit".data)
    [("CIS-5.2.8".data), ("PCI-DSS-2.2".data), ("Resource Management Best Practices".data)]
    ("resource_management".data)

/-- `MemoryLimitsScanner.scan`. -/
def memoryLimitsScan (pod : Pod) : List Finding :=
  pod.spec.containers.flatMap (fun container =>
    match container.resources with
    | some resources =>
      match resources.limits with
      | some limits =>
        if limits ≠ [] then
          if dictGet limits ("memory".data) = none then
            [_create_memory_finding pod.metadata.name pod.metadata.ns container.name
              ("Memory limit not defined".data)]
          else []
        else
          [_create_memory_finding pod.metadata.name pod.metadata.ns container.name
            ("No resource limits section".data)]
      | none =>
        [_create_memory_finding pod.metadata.name pod.metadata.ns container.name
          ("No resource limits section".data)]
    | none =>
      [_create_memory_finding pod.metadata.name pod.metadata.ns container.name
        ("No resources defined".data)])

/-! ## ResourceRequestsScanner -/

/-- `ResourceRequestsScanner._create_requests_finding`. -/
def _create_requests_finding (pod_name ns container_name : Str)
    (missing : List Str) : Finding :=
  create_finding ("ResourceRequestsScanner".data) S_MEDIUM pod_name ns container_name
    (("Missing resource requests: ".data) ++ joinSep (" and ".data) missing)
    [("CIS-5.2.9".data), ("Resource Management Best Practices".data),
      ("Kubernetes QoS Classes".data)]
    ("resource_management".data)

/-- `ResourceRequestsScanner.scan`. -/
def resourceRequestsScan (pod : Pod) : List Finding :=
  pod.spec.containers.flatMap (fun container =>
    let missing_requests : List Str :=
      match container.resources with
      | some resources =>
        match resources.requests with
        | some requests =>
          if requests ≠ [] then
            (if dictGet requests ("cpu".data) = none then [("cpu".data)] else []) ++
            (if dictGet requests ("memory".data) = none then [("memory".data)] else [])
          else [("cpu".data), ("memory".data)]
        | none => [("cpu".data), ("memory".data)]
      | none => [("cpu".data), ("memory".data)]
    if missing_requests ≠ [] then
      [_create_requests_finding pod.metadata.name pod.metadata.ns container.name
        missing_requests]
    else [])

/-! ## LatestTagScanner -/

/-- `LatestTagScanner._create_latest_finding`. -/
def _create_latest_finding (pod_name ns container_name _image : Str) : Finding :=
  create_finding ("LatestTagScanner".data) S_MEDIUM pod_name ns container_name
    ("Using :latest image tag".data)
    [("CIS-5.4.1".data), ("Image Security Best Practices".data),
      ("Deployment Reproducibility".data)]
    ("image_security".data)

/-- `LatestTagScanner.scan` (`endswith(':latest') or ':latest' in image`). -/
def latestTagScan (pod : Pod) : List Finding :=
  pod.spec.containers.flatMap (fun container =>
    if startsWith container.image.reverse (":latest".data).reverse
        || hasSub container.image (":latest".data) then
      [_create_latest_finding pod.metadata.name pod.metadata.ns container.name
        container.image]
    else [])

/-! ## UntaggedImageScanner -/

/-- `UntaggedImageScanner._create_untagged_finding`. -/
def _create_untagged_finding (pod_name ns container_name _image : Str) : Finding :=
  create_finding ("UntaggedImageScanner".data) S_MEDIUM pod_name ns container_name
    ("Image has no tag specified".data)
    [("CIS-5.4.1".data), ("Image Security Best Practices".data),
      ("Configuration Management".data)]
    ("image_security".data)

/-- `UntaggedImageScanner.scan` (`':' not in image and '@' not in image`). -/
def untaggedImageScan (pod : Pod) : List Finding :=
  pod.spec.containers.flatMap (fun container =>
    if !container.image.contains ':' && !container.image.contains '@' then
      [_create_untagged_finding pod.metadata.name pod.metadata.ns container.name
        container.image]
    else [])

/-! ## ImageRegistryScanner -/

/-- `ImageRegistryScanner.TRUSTED_REGISTRIES`. -/
def TRUSTED_REGISTRIES : List Str :=
  [("gcr.io".data), ("us.gcr.io".data), ("eu.gcr.io".data), ("asia.gcr.io".data),
    ("registry.k8s.io".data), ("k8s.gcr.io".data), ("quay.io".data), ("ghcr.io".data),
    ("mcr.microsoft.com".data), ("docker.io/library".data)]

/-- `ImageRegistryScanner._extract_registry`. -/
def _extract_registry (image : Str) : Str :=
  let parts := splitOnChar '/' image
  if parts.length = 1 then
    ("docker.io".data)
  else if (parts.headD []).contains '.' || (parts.headD []).contains ':' then
    parts.headD []
  else
    ("docker.io".data)

/-- `ImageRegistryScanner._is_trusted_registry`. -/
def _is_trusted_registry (registry : Str) : Bool :=
  TRUSTED_REGISTRIES.any (fun trusted => startsWith registry trusted)

/-- `ImageRegistryScanner._create_registry_finding`. -/
def _create_registry_finding (pod_name ns container_name _image registry : Str) : Finding :=
  create_finding ("ImageRegistryScanner".data) S_MEDIUM pod_name ns container_name
    (("Image from untrusted registry: ".data) ++ registry)
    [("CIS-5.4.2".data), ("Supply Chain Security".data), ("Image Provenance".data)]
    ("image_security".data)

/-- `ImageRegistryScanner.scan`. -/
def imageRegistryScan (pod : Pod) : List Finding :=
  pod.spec.containers.flatMap (fun container =>
    let registry := _extract_registry container.image
    if !_is_trusted_registry registry then
      [_create_registry_finding pod.metadata.name pod.metadata.ns container.name
        container.image registry]
    else [])

/-! ## CapabilitiesScanner (rule catalog member, not registered in the
orchestrator's scanner list) -/

/-- `CapabilitiesScanner.DANGEROUS_CAPABILITIES`. -/
def DANGEROUS_CAPABILITIES : List Str :=
  [("SYS_ADMIN".data), ("SYS_MODULE".data), ("SYS_RAWIO".data), ("SYS_PTRACE".data),
    ("SYS_BOOT".data), ("MAC_ADMIN".data), ("MAC_OVERRIDE".data),
    ("DAC_READ_SEARCH".data), ("DAC_OVERRIDE".data), ("NET_ADMIN".data),
    ("NET_RAW".data)]

/-- The per-capability normalization of `CapabilitiesScanner.scan`:
`cap.upper().replace('CAP_', '')` (Python `replace` removes every
occurrence of `CAP_`, not only a leading one). -/
def normalizeCap (cap : Str) : Str :=
  replaceAll (strUpper cap) ("CAP_".data) []

/-- `CapabilitiesScanner._create_caps_finding`. -/
def _create_caps_finding (pod_name ns container_name : Str)
    (capabilities : List Str) : Finding :=
  create_finding ("CapabilitiesScanner".data)
    (if ("SYS_ADMIN".data) ∈ capabilities ∨ ("SYS_MODULE".data) ∈ capabilities
      then S_HIGH else S_MEDIUM)
    pod_name ns container_name
    (("Dangerous capabilities granted: ".data) ++ joinSep (", ".data) capabilities)
    [("CIS-5.2.9".data), ("Linux Capabilities Best Practices".data)]
    ("pod_security".data)

/-- `CapabilitiesScanner.scan`.  The `for cap in caps.add` loop that collects
normalized names passing the dangerous-set membership test is the
map-then-filter below. -/
def capabilitiesScan (pod : Pod) : List Finding :=
  pod.spec.containers.flatMap (fun container =>
    match container.security_context with
    | some sc =>
      match sc.capabilities with
      | some caps =>
        match caps.add with
        | some add =>
          if add ≠ [] then
            let dangerous_caps :=
              (add.map normalizeCap).filter (fun cap => cap ∈ DANGEROUS_CAPABILITIES)
            if dangerous_caps ≠ [] then
              [_create_caps_finding pod.metadata.name pod.metadata.ns container.name
                dangerous_caps]
            else []
          else []
        | none => []
      | none => []
    | none => [])

/-! ## SecretsInEnvScanner (rule catalog member, not registered in the
orchestrator's scanner list) -/

/-- `SecretsInEnvScanner.SECRET_PATTERNS`. -/
def SECRET_PATTERNS : List Str :=
  [("PASSWORD".data), ("PASSWD".data), ("PWD".data),
    ("SECRET".data), ("API_KEY".data), ("APIKEY".data),
    ("TOKEN".data), ("AUTH".data), ("CREDENTIAL".data),
    ("PRIVATE_KEY".data), ("PRIV_KEY".data),
    ("ACCESS_KEY".data), ("SECRET_KEY".data),
    ("DATABASE_URL".data), ("DB_PASSWORD".data),
    ("ENCRYPTION_KEY".data), ("CIPHER_KEY".data)]

/-- `SecretsInEnvScanner.SAFE_PATTERNS`. -/
def SAFE_PATTERNS : List Str :=
  [("PATH".data), ("HOME".data), ("SHELL".data), ("LANG".data),
    ("TZ".data), ("TERM".data), ("USER".data), ("HOSTNAME".data),
    ("PORT".data), ("HOST".data), ("REPLICAS".data)]

/-- `SecretsInEnvScanner._is_likely_secret`: safe patterns are tested first
and short-circuit to `false`; then any secret pattern flags. -/
def _is_likely_secret (var_name : Str) : Bool :=
  let var_upper := strUpper var_name
  if SAFE_PATTERNS.any (fun safe => hasSub var_upper safe) then false
  else SECRET_PATTERNS.any (fun pattern => hasSub var_upper pattern)

/-- `SecretsInEnvScanner._mask_value`. -/
def _mask_value (value : Str) : Str :=
  if value.length ≤ 4 then ("****".data)
  else value.take 2 ++ ("...".data) ++ value.drop (value.length - 2)

/-- `SecretsInEnvScanner._create_secret_finding`.  The masked value
`_mask_value value` is interpolated only into the omitted description
prose, so the embedded finding keeps the variable name in its issue. -/
def _create_secret_finding (pod_name ns container_name var_name _value : Str) : Finding :=
  create_finding ("SecretsInEnvScanner".data) S_CRITICAL pod_name ns container_name
    (("Hardcoded secret in environment variable: ".data) ++ var_name)
    [("CIS-5.4.3".data), ("PCI-DSS-3.4".data), ("GDPR-Article-32".data),
      ("SOC2-CC6.1".data)]
    ("secrets_management".data)

/-- The body of the per-env-var loop of `SecretsInEnvScanner.scan`:
`valueFrom` short-circuits to compliant, then `elif env_var.value:`
(a `None` or empty value is falsy and is not flagged). -/
def secretsEnvVarCheck (pod_name ns container_name : Str) (env_var : EnvVar) :
    List Finding :=
  if _is_likely_secret env_var.name then
    if env_var.value_from then []
    else if pyTruthyStr env_var.value then
      [_create_secret_finding pod_name ns container_name env_var.name
        (env_var.value.getD [])]
    else []
  else []

/-- `SecretsInEnvScanner.scan` (`if container.env:` makes a missing and an
empty env list equally silent). -/
def secretsInEnvScan (pod : Pod) : List Finding :=
  pod.spec.containers.flatMap (fun container =>
    match container.env with
    | some env =>
      env.flatMap (secretsEnvVarCheck pod.metadata.name pod.metadata.ns container.name)
    | none => [])

/-! ## ScannerManager -/

/-- The fixed, ordered scanner catalog built by `ScannerManager.__init__`. -/
def scanners : List (Pod → List Finding) :=
  [rootUserScan, privilegedScan, privilegeEscalationScan, readOnlyFilesystemScan,
    cpuLimitsScan, memoryLimitsScan, resourceRequestsScan,
    latestTagScan, untaggedImageScan, imageRegistryScan]

/-- `ScannerManager.scan_pod`: run every scanner, extending one list. -/
def scan_pod (pod : Pod) : List Finding :=
  scanners.foldl (fun all_findings scanner => all_findings ++ scanner pod) []

/-- The `findings_by_severity` dict of `ScannerManager.scan_pods`. -/
structure FindingsBySeverity where
  critical : List Finding
  high : List Finding
  medium : List Finding
  low : List Finding
deriving DecidableEq

/-- The body of the bucketing loop of `scan_pods`: append the finding to the
bucket named by its severity, drop it when no bucket has that name.  (Every
finding of this code base carries a `severity` key, so the source's
`finding.get('severity', 'LOW')` is the field itself.) -/
def bucketStep (buckets : FindingsBySeverity) (finding : Finding) : FindingsBySeverity :=
  if finding.severity = S_CRITICAL then
    { buckets with critical := buckets.critical ++ [finding] }
  else if finding.severity = S_HIGH then
    { buckets with high := buckets.high ++ [finding] }
  else if finding.severity = S_MEDIUM then
    { buckets with medium := buckets.medium ++ [finding] }
  else if finding.severity = S_LOW then
    { buckets with low := buckets.low ++ [finding] }
  else buckets

/-- The dictionary `ScannerManager.scan_pods` returns. -/
structure ScanPodsResult where
  total_findings : Nat
  findings_by_severity : FindingsBySeverity
  all_findings : List Finding
deriving DecidableEq

/-- `ScannerManager.scan_pods`. -/
def scan_pods (pods : List Pod) : ScanPodsResult :=
  let all_findings := pods.foldl (fun acc pod => acc ++ scan_pod pod) []
  { total_findings := all_findings.length,
    findings_by_severity := all_findings.foldl bucketStep ⟨[], [], [], []⟩,
    all_findings := all_findings }

/-! ## SecurityScorer -/

/-- `SecurityScorer.SEVERITY_WEIGHTS` (point deductions by severity). -/
def SEVERITY_WEIGHTS : List (Str × Nat) :=
  [(S_CRITICAL, 15), (S_HIGH, 8), (S_MEDIUM, 3), (S_LOW, 1)]

/-! ### IEEE-754 binary64 arithmetic of the scorer

`total_deductions` is a Python float.  Every float value this scorer can
produce is non-negative, so a value is either `Fl.inf` (the overflow
infinity, on which `int()` raises `OverflowError`) or a finite double
represented exactly by its number of `2 ^ (-1074)` units — the subnormal
quantum, of which every non-negative finite double is an exact natural
multiple.  Rounding keeps 53 significant bits (nearest, ties to even),
the binary64 rule; values of at most 53 bits of units lie in the
subnormal range or lowest normal binade, whose grid is exactly one unit.
The scorer's multiplier literals and `int * float` products (weights at
most 15, multipliers at most 1.5) are far below the overflow threshold,
so only the additions carry the overflow check. -/

/-- Bit length of a natural number, with explicit fuel (`n` itself always
suffices) so that the kernel can evaluate it. -/
def bitLenAux : Nat → Nat → Nat
  | 0, _ => 0
  | fuel + 1, n => if n = 0 then 0 else bitLenAux fuel (n / 2) + 1

/-- `bitLen n = ⌊log2 n⌋ + 1` for positive `n`, and `bitLen 0 = 0`. -/
def bitLen (n : Nat) : Nat := bitLenAux n n

/-- Round the fraction `N / D` (`D > 0`) to the nearest natural number,
ties to the even neighbour. -/
def rheFrac (N D : Nat) : Nat :=
  if 2 * (N % D) < D then N / D
  else if D < 2 * (N % D) then N / D + 1
  else if (N / D) % 2 = 0 then N / D else N / D + 1

/-- Round the value `N / D` (in `2 ^ (-1074)` units, `D > 0`) to a 53-bit
significand: nearest, ties to even, the grid coarsening binade by binade
above the one-unit grid of the lowest 53 binades. -/
def roundFrac (N D : Nat) : Nat :=
  if bitLen (N / D) ≤ 53 then rheFrac N D
  else rheFrac N (D * 2 ^ (bitLen (N / D) - 53)) * 2 ^ (bitLen (N / D) - 53)

/-- The units value of the finite double nearest the decimal literal
`a / b` (the parsed value of a float literal of the source; the scorer's
literals never overflow). -/
def floatLit (a b : Nat) : Nat := roundFrac (a * 2 ^ 1074) b

/-- A non-negative binary64 value: finite (in `2 ^ (-1074)` units) or the
infinity produced by an overflowing addition. -/
inductive Fl where
  | finite (units : Nat)
  | inf
deriving DecidableEq

/-- One Python float addition `total + d`: round the exact sum, overflow
to infinity at `2 ^ 1024` (`2 ^ 2098` units); infinity is absorbing. -/
def flAdd : Fl → Nat → Fl
  | .inf, _ => .inf
  | .finite t, d =>
    if 2 ^ 2098 ≤ roundFrac (t + d) 1 then .inf
    else .finite (roundFrac (t + d) 1)

/-- Python `int()` of a non-negative finite double: truncation toward
zero, which on non-negative values is the floor — whole points of the
units total. -/
def pyIntUnits (n : Nat) : Int := ((n / 2 ^ 1074 : Nat) : Int)

/-- `SecurityScorer.ISSUE_MULTIPLIERS`: the phrase table, each multiplier
carrying the binary64 value of the source's literal (1.5, 1.3, 1.3, 1.2). -/
def ISSUE_MULTIPLIERS : List (Str × Nat) :=
  [(("Hardcoded secret".data), floatLit 15 10),
    (("Container running as root".data), floatLit 13 10),
    (("Container running in privileged mode".data), floatLit 13 10),
    (("Pod using host network".data), floatLit 12 10)]

/-- The multiplier search loop of `calculate_pod_score`: first table entry
whose lower-cased phrase occurs in the lower-cased issue wins (`break`);
otherwise the multiplier keeps the given default (the literal 1.0 in the
source). -/
def findMultiplier {α : Type} (dflt : α) : List (Str × α) → Str → α
  | [], _ => dflt
  | (issue_type, mult) :: rest, issue =>
    if hasSub (strLower issue) (strLower issue_type) then mult
    else findMultiplier dflt rest issue

/-- The `severity_counts` dict of `calculate_pod_score`. -/
structure SevCounts where
  critical : Nat
  high : Nat
  medium : Nat
  low : Nat
deriving DecidableEq

/-- `severity_counts[severity] += 1`: `none` models the `KeyError` raised
when the severity is none of the four canonical names. -/
def bumpCount (counts : SevCounts) (severity : Str) : Option SevCounts :=
  if severity = S_CRITICAL then some { counts with critical := counts.critical + 1 }
  else if severity = S_HIGH then some { counts with high := counts.high + 1 }
  else if severity = S_MEDIUM then some { counts with medium := counts.medium + 1 }
  else if severity = S_LOW then some { counts with low := counts.low + 1 }
  else none

/-- One iteration of the deduction loop of `calculate_pod_score`:
`deduction * multiplier` is one exact integer-times-double product with a
single rounding (integer weights, at most 15, convert to binary64
exactly, and the product, at most 22.5, cannot overflow), and
`total_deductions +=` is one rounded float addition. -/
def scoreStep (st : Fl × SevCounts) (finding : Finding) : Option (Fl × SevCounts) :=
  let deduction := dictGetD SEVERITY_WEIGHTS finding.severity 1
  let multiplier := findMultiplier (floatLit 1 1) ISSUE_MULTIPLIERS finding.issue
  (bumpCount st.2 finding.severity).map
    (fun counts => (flAdd st.1 (roundFrac (deduction * multiplier) 1), counts))

/-- `SecurityScorer._score_to_grade`. -/
def _score_to_grade (score : Int) : Str :=
  if 95 ≤ score then ("A+".data)
  else if 90 ≤ score then ("A".data)
  else if 85 ≤ score then ("A-".data)
  else if 80 ≤ score then ("B+".data)
  else if 75 ≤ score then ("B".data)
  else if 70 ≤ score then ("B-".data)
  else if 65 ≤ score then ("C+".data)
  else if 60 ≤ score then ("C".data)
  else if 55 ≤ score then ("C-".data)
  else if 50 ≤ score then ("D".data)
  else ("F".data)

/-- `SecurityScorer._determine_risk_level`. -/
def _determine_risk_level (counts : SevCounts) : Str :=
  if 3 ≤ counts.critical then ("CRITICAL".data)
  else if 1 ≤ counts.critical ∨ 5 ≤ counts.high then ("HIGH".data)
  else if 2 ≤ counts.high ∨ 8 ≤ counts.medium then ("MODERATE".data)
  else if 3 ≤ counts.medium ∨ 10 ≤ counts.low then ("LOW".data)
  else ("MINIMAL".data)

/-- The dictionary `calculate_pod_score` returns (the empty-findings early
return carries no `severity_breakdown` key, hence the `Option`). -/
structure ScoreResult where
  score : Int
  grade : Str
  total_deductions : Int
  findings_count : Nat
  severity_breakdown : Option SevCounts
  risk_level : Str
deriving DecidableEq

/-- `SecurityScorer.calculate_pod_score`; `none` models both the
`KeyError` the counting line raises on a severity outside the canonical
four and the `OverflowError` that `int(total_deductions)` raises if the
float total has overflowed to infinity. -/
def calculate_pod_score (findings : List Finding) : Option ScoreResult :=
  if findings = [] then
    some { score := 100, grade := ("A+".data), total_deductions := 0,
           findings_count := 0, severity_breakdown := none,
           risk_level := ("MINIMAL".data) }
  else
    (findings.foldlM scoreStep (.finite 0, ⟨0, 0, 0, 0⟩)).bind (fun tc =>
      match tc.1 with
      | .inf => none
      | .finite total =>
        let score : Int := max 0 (100 - pyIntUnits total)
        some { score := score, grade := _score_to_grade score,
               total_deductions := pyIntUnits total,
               findings_count := findings.length,
               severity_breakdown := some tc.2,
               risk_level := _determine_risk_level tc.2 })

/-! ## ComplianceMapper -/

/-- One entry of a framework's violation list. -/
structure Violation where
  reference : Str
  issue : Str
  severity : Str
  pod : Str
deriving DecidableEq

/-- The framework code of one compliance reference:
`ref.split('-')[0] if '-' in ref else ref`. -/
def frameworkOf (ref : Str) : Str :=
  if hasSub ref ("-".data) then (splitOnChar '-' ref).headD [] else ref

/-- `framework_violations[framework].append(violation)` on the insertion-
ordered `defaultdict(list)`, modelled as an association list. -/
def addViolation (groups : List (Str × List Violation)) (framework : Str)
    (violation : Violation) : List (Str × List Violation) :=
  match groups with
  | [] => [(framework, [violation])]
  | (k, vs) :: rest =>
    if k = framework then (k, vs ++ [violation]) :: rest
    else (k, vs) :: addViolation rest framework violation

/-- The grouping double loop of `analyze_compliance`. -/
def collectViolations (findings : List Finding) : List (Str × List Violation) :=
  findings.foldl (fun groups f =>
    f.compliance.foldl (fun gs ref =>
      addViolation gs (frameworkOf ref)
        { reference := ref, issue := f.issue, severity := f.severity,
          pod := f.pod_name }) groups) []

/-- One value of the `framework_scores` dict. -/
structure FrameworkScore where
  compliance_percentage : Int
  total_violations : Nat
  critical_violations : Nat
  high_violations : Nat
  status : Str
deriving DecidableEq

/-- `ComplianceMapper._get_compliance_status`. -/
def _get_compliance_status (percentage : Int) : Str :=
  if 90 ≤ percentage then ("COMPLIANT".data)
  else if 70 ≤ percentage then ("MOSTLY_COMPLIANT".data)
  else if 50 ≤ percentage then ("PARTIALLY_COMPLIANT".data)
  else ("NON_COMPLIANT".data)

/-- The per-framework score computation of `analyze_compliance`. -/
def scoreForViolations (violations : List Violation) : FrameworkScore :=
  let critical := violations.countP (fun v => decide (v.severity = S_CRITICAL))
  let high := violations.countP (fun v => decide (v.severity = S_HIGH))
  let compliance_pct : Int :=
    if 0 < critical then max 0 ((60 : Int) - critical * 10 - high * 5)
    else if 0 < high then max 0 ((80 : Int) - high * 5)
    else 90
  { compliance_percentage := compliance_pct,
    total_violations := violations.length,
    critical_violations := critical,
    high_violations := high,
    status := _get_compliance_status compliance_pct }

/-- The dictionary `analyze_compliance` returns. -/
structure ComplianceResult where
  framework_scores : List (Str × FrameworkScore)
  framework_violations : List (Str × List Violation)
  total_frameworks_affected : Nat
deriving DecidableEq

/-- `ComplianceMapper.analyze_compliance`. -/
def analyze_compliance (findings : List Finding) : ComplianceResult :=
  let framework_violations := collectViolations findings
  { framework_scores :=
      framework_violations.map (fun kv => (kv.1, scoreForViolations kv.2)),
    framework_violations := framework_violations,
    total_frameworks_affected := framework_violations.length }

/-! ## Claim-side formulations (written from the specification's words, to be
compared against the embedded source) -/

/-- A severity is one of the four canonical names. -/
def canonicalSeverity (severity : Str) : Prop :=
  severity = S_CRITICAL ∨ severity = S_HIGH ∨ severity = S_MEDIUM ∨ severity = S_LOW

instance (severity : Str) : Decidable (canonicalSeverity severity) := by
  unfold canonicalSeverity; infer_instance

/-- The high-risk phrase table exactly as the claim states it ("hardcoded
secret" x1.5, "running as root" x1.3, "privileged mode" x1.3, "host
network" x1.2), in tenths. -/
def CLAIMED_ISSUE_MULTIPLIERS : List (Str × Nat) :=
  [(("hardcoded secret".data), 15),
    (("running as root".data), 13),
    (("privileged mode".data), 13),
    (("host network".data), 12)]

/-- Claim-side multiplier: the multiplier of the first table phrase occurring
case-insensitively in the issue text, 1.0 (10 tenths) when none matches. -/
def firstMultT (table : List (Str × Nat)) (issue : Str) : Nat :=
  ((table.find? (fun pm => hasSub (strLower issue) (strLower pm.1))).map
    (fun pm => pm.2)).getD 10

/-- Claim-side per-finding deduction (in tenths): severity weight times the
multiplier of the first matching phrase. -/
def findingDeductionT (table : List (Str × Nat)) (finding : Finding) : Nat :=
  dictGetD SEVERITY_WEIGHTS finding.severity 1 * firstMultT table finding.issue

/-- Claim-side score: `max(0, 100 - int(sum of per-finding deductions))`. -/
def scoreFormula (table : List (Str × Nat)) (findings : List Finding) : Int :=
  max 0 (100 - (((findings.map (findingDeductionT table)).sum) / 10 : Nat))

/-- Claim-side capability normalization for C7: upper-case, then strip a
leading `CAP_` prefix (only a prefix — unlike the source's `replace`). -/
def claimNormalizeCap (cap : Str) : Str :=
  let upper := strUpper cap
  if startsWith upper ("CAP_".data) then upper.drop 4 else upper

/-- `CapabilitiesScanner.scan` as claim C7 describes it: identical except
that capability names are normalized by `claimNormalizeCap`. -/
def claimCapsScan (pod : Pod) : List Finding :=
  pod.spec.containers.flatMap (fun container =>
    match container.security_context with
    | some sc =>
      match sc.capabilities with
      | some caps =>
        match caps.add with
        | some add =>
          if add ≠ [] then
            let dangerous_caps :=
              (add.map claimNormalizeCap).filter (fun cap => cap ∈ DANGEROUS_CAPABILITIES)
            if dangerous_caps ≠ [] then
              [_create_caps_finding pod.metadata.name pod.metadata.ns container.name
                dangerous_caps]
            else []
          else []
        | none => []
      | none => []
    | none => [])

/-- The flagging condition exactly as claim C8 states it: no safe substring,
at least one secret substring, not sourced from a reference object, and an
inline literal value is present (`e.value ≠ none` — the claim does not
require it to be non-empty). -/
def claimSecretCondition (e : EnvVar) : Prop :=
  (¬∃ safe ∈ SAFE_PATTERNS, hasSub (strUpper e.name) safe = true) ∧
  (∃ pattern ∈ SECRET_PATTERNS, hasSub (strUpper e.name) pattern = true) ∧
  e.value_from = false ∧ e.value ≠ none

instance (e : EnvVar) : Decidable (claimSecretCondition e) := by
  unfold claimSecretCondition; infer_instance

/-- Registry extraction exactly as claim C9 states it: no `/` at all gives
the default public registry; otherwise the first `/`-segment is the
registry exactly when it contains `.` or `:`. -/
def claimExtractRegistry (image : Str) : Str :=
  if !image.contains '/' then ("docker.io".data)
  else if ((splitOnChar '/' image).headD []).contains '.'
      || ((splitOnChar '/' image).headD []).contains ':' then
    (splitOnChar '/' image).headD []
  else ("docker.io".data)

/-- The flat `(framework, violation)` stream of `analyze_compliance`, in
traversal order: one pair per compliance reference of each finding. -/
def refPairs (findings : List Finding) : List (Str × Violation) :=
  findings.flatMap (fun f =>
    f.compliance.map (fun ref =>
      (frameworkOf ref,
        { reference := ref, issue := f.issue, severity := f.severity,
          pod := f.pod_name })))

/-- The claim-side violation list of one framework: the flat-stream entries
carrying that framework code, in their original relative order. -/
def valuesFor (pairs : List (Str × Violation)) (framework : Str) : List Violation :=
  pairs.filterMap (fun kv => if kv.1 = framework then some kv.2 else none)

/-- Association-list lookup of one framework's accumulated violation list
(the empty list when the key is absent). -/
def lookupGroup (groups : List (Str × List Violation)) (framework : Str) :
    List Violation :=
  ((groups.find? (fun kv => kv.1 = framework)).map (fun kv => kv.2)).getD []

/-- Claim-side multiplier: the multiplier of the first table phrase
occurring case-insensitively in the issue text, or the default. -/
def firstMult {α : Type} (dflt : α) (table : List (Str × α)) (issue : Str) : α :=
  ((table.find? (fun pm => hasSub (strLower issue) (strLower pm.1))).map
    (fun pm => pm.2)).getD dflt

/-- Claim-side per-finding deduction in binary64 units: the severity
weight times the multiplier of the first matching source-table phrase, as
one rounded double product. -/
def floatDeduction (finding : Finding) : Nat :=
  roundFrac (dictGetD SEVERITY_WEIGHTS finding.severity 1 *
    firstMult (floatLit 1 1) ISSUE_MULTIPLIERS finding.issue) 1

/-- Claim-side float total: the left-to-right rounded binary64 sum of the
per-finding deductions. -/
def floatTotal (findings : List Finding) : Fl :=
  (findings.map floatDeduction).foldl flAdd (.finite 0)

/-- Claim-side score: `max(0, 100 - int(total))` for a finite float
total, no result (the `OverflowError` of `int`) for an infinite one. -/
def floatScoreOpt (findings : List Finding) : Option Int :=
  match floatTotal findings with
  | .finite total => some (max 0 (100 - pyIntUnits total))
  | .inf => none

/-! ## General lemmas about the embedded loops -/

/-- An `all := all ++ step x` loop is concatenation of the per-item results. -/
theorem foldl_append_acc {α β : Type} (l : List α) (g : α → List β) (acc : List β) :
    l.foldl (fun a x => a ++ g x) acc = acc ++ l.flatMap g := by
  induction l generalizing acc with
  | nil => simp
  | cons x xs ih => simp [ih, List.append_assoc]

/-- A loop appending `[g x]` under a guard is a filter-then-map. -/
theorem flatMap_guard_singleton {α β : Type} (l : List α) (p : α → Bool) (g : α → β) :
    (l.flatMap fun a => if p a then [g a] else []) = (l.filter p).map g := by
  induction l with
  | nil => rfl
  | cons x xs ih =>
    by_cases hx : p x <;> simp [hx, ih]

/-- `split` never returns an empty part list. -/
theorem splitOnChar_ne_nil (sep : Char) (s : Str) : splitOnChar sep s ≠ [] := by
  induction s with
  | nil => simp [splitOnChar]
  | cons c rest ih =>
    by_cases hc : c == sep
    · simp [splitOnChar, hc]
    · simp only [splitOnChar, hc]
      cases hsplit : splitOnChar sep rest with
      | nil => simp
      | cons h t => simp

/-- `s.split(sep)` has a single part exactly when `sep` does not occur. -/
theorem splitOnChar_length_one_iff (sep : Char) (s : Str) :
    (splitOnChar sep s).length = 1 ↔ s.contains sep = false := by
  induction s with
  | nil => simp [splitOnChar]
  | cons c rest ih =>
    by_cases hc : c == sep
    · have hcs : c = sep := by simpa using hc
      subst hcs
      constructor
      · intro h
        exfalso
        have hne := splitOnChar_ne_nil c rest
        simp [splitOnChar] at h
        exact hne h
      · intro h
        simp [List.contains_cons] at h
    · have hne : ¬c = sep := by simpa using hc
      have hsc : (sep == c) = false := by
        simp only [beq_eq_false_iff_ne, ne_eq]
        exact fun hh => hne hh.symm
      cases hsplit : splitOnChar sep rest with
      | nil => exact absurd hsplit (splitOnChar_ne_nil sep rest)
      | cons hd tl =>
        rw [hsplit] at ih
        simp only [List.length_cons] at ih
        simp only [splitOnChar, hc, Bool.false_eq_true, if_false, hsplit,
          List.length_cons, List.contains_cons, hsc, Bool.false_or]
        exact ih

/-- The multiplier loop with `break` returns the first matching entry. -/
theorem findMultiplier_eq_firstMult {α : Type} (dflt : α)
    (table : List (Str × α)) (issue : Str) :
    findMultiplier dflt table issue = firstMult dflt table issue := by
  induction table with
  | nil => rfl
  | cons pm rest ih =>
    by_cases h : hasSub (strLower issue) (strLower pm.1)
    · simp [findMultiplier, firstMult, List.find?_cons, h]
    · simp only [findMultiplier, firstMult, List.find?_cons] at *
      simp [h] at *
      exact ih

/-- `bitLenAux` of zero is zero for any fuel. -/
theorem bitLenAux_zero (fuel : Nat) : bitLenAux fuel 0 = 0 := by
  cases fuel <;> rfl

/-- With enough fuel, `bitLenAux` computes the bit length: a positive `n`
lies in `[2 ^ (len - 1), 2 ^ len)`. -/
theorem bitLenAux_spec (fuel : Nat) : ∀ n, 0 < n → n ≤ fuel →
    2 ^ (bitLenAux fuel n - 1) ≤ n ∧ n < 2 ^ bitLenAux fuel n := by
  induction fuel with
  | zero => intro n h1 h2; omega
  | succ fuel ih =>
    intro n h1 h2
    rw [show bitLenAux (fuel + 1) n
        = if n = 0 then 0 else bitLenAux fuel (n / 2) + 1 from rfl,
      if_neg (by omega)]
    by_cases hn2 : n / 2 = 0
    · have hn1 : n = 1 := by omega
      subst hn1
      rw [show (1 : Nat) / 2 = 0 from rfl, bitLenAux_zero]
      norm_num
    · have h3 : n / 2 ≤ fuel := by omega
      obtain ⟨l, u⟩ := ih (n / 2) (by omega) h3
      set k := bitLenAux fuel (n / 2) with hk
      have hk1 : 1 ≤ k := by
        rcases Nat.eq_zero_or_pos k with h0 | h0
        · rw [h0] at u; simp at u; omega
        · exact h0
      have e1 : (2 : Nat) ^ k = 2 * 2 ^ (k - 1) := by
        conv_lhs => rw [show k = k - 1 + 1 by omega]
        rw [pow_succ]; ring
      have e2 : (2 : Nat) ^ (k + 1) = 2 * 2 ^ k := by rw [pow_succ]; ring
      refine ⟨?_, ?_⟩
      · rw [show k + 1 - 1 = k by omega, e1]
        omega
      · rw [e2]
        omega

/-- The bit length of a positive number brackets it between two powers. -/
theorem bitLen_spec (n : Nat) (h : 0 < n) :
    2 ^ (bitLen n - 1) ≤ n ∧ n < 2 ^ bitLen n :=
  bitLenAux_spec n n h le_rfl

/-- `bitLen 0 = 0`, so a bit length above 53 forces positivity. -/
theorem bitLen_zero : bitLen 0 = 0 := rfl

/-- Half-even rounding is at least the floor of the fraction. -/
theorem rheFrac_ge (N D : Nat) : N / D ≤ rheFrac N D := by
  unfold rheFrac; split_ifs <;> omega

/-- Half-even rounding is at most the floor plus one. -/
theorem rheFrac_le (N D : Nat) : rheFrac N D ≤ N / D + 1 := by
  unfold rheFrac; split_ifs <;> omega

/-- An exact fraction (denominator one) rounds to itself. -/
theorem rheFrac_one (N : Nat) : rheFrac N 1 = N := by
  unfold rheFrac
  norm_num [Nat.mod_one]

/-- A representable binary64 magnitude (in units): a significand of at
most `2 ^ 53` times a power of two. -/
def IsRepr (v : Nat) : Prop := ∃ m s : Nat, m ≤ 2 ^ 53 ∧ v = m * 2 ^ s

/-- Rounding to a 53-bit significand yields a representable value. -/
theorem roundFrac_one_repr (n : Nat) : IsRepr (roundFrac n 1) := by
  unfold roundFrac
  rw [Nat.div_one]
  split_ifs with hL
  · rw [rheFrac_one]
    refine ⟨n, 0, ?_, by ring⟩
    rcases Nat.eq_zero_or_pos n with h0 | h0
    · subst h0; exact Nat.zero_le _
    · have hu := (bitLen_spec n h0).2
      have hp : (2 : Nat) ^ bitLen n ≤ 2 ^ 53 := Nat.pow_le_pow_right (by norm_num) hL
      omega
  · push_neg at hL
    rw [one_mul]
    have hn0 : 0 < n := by
      rcases Nat.eq_zero_or_pos n with h0 | h0
      · subst h0; rw [bitLen_zero] at hL; omega
      · exact h0
    refine ⟨rheFrac n (2 ^ (bitLen n - 53)), bitLen n - 53, ?_, rfl⟩
    have hu := (bitLen_spec n hn0).2
    have hpow : (2 : Nat) ^ 53 * 2 ^ (bitLen n - 53) = 2 ^ bitLen n := by
      rw [← pow_add]
      congr 1
      omega
    have h1 : n / 2 ^ (bitLen n - 53) < 2 ^ 53 := by
      rw [Nat.div_lt_iff_lt_mul (by positivity), hpow]
      exact hu
    have h2 := rheFrac_le n (2 ^ (bitLen n - 53))
    omega

/-- The 53-bit rounding of `x` is at least any representable value below
`x`: the rounded value is at least the largest grid point not above the
exact one. -/
theorem roundFrac_one_ge_repr (x r : Nat) (hr : IsRepr r) (hrx : r ≤ x) :
    r ≤ roundFrac x 1 := by
  obtain ⟨m, s, hm, rfl⟩ := hr
  unfold roundFrac
  rw [Nat.div_one]
  split_ifs with hL
  · rw [rheFrac_one]; exact hrx
  · push_neg at hL
    rw [one_mul]
    have hx0 : 0 < x := by
      rcases Nat.eq_zero_or_pos x with h0 | h0
      · subst h0; rw [bitLen_zero] at hL; omega
      · exact h0
    have hge := rheFrac_ge x (2 ^ (bitLen x - 53))
    have key : m * 2 ^ s ≤ x / 2 ^ (bitLen x - 53) * 2 ^ (bitLen x - 53) := by
      by_cases hcase : bitLen x - 53 ≤ s
      · have hs : s - (bitLen x - 53) + (bitLen x - 53) = s := by omega
        have e : m * 2 ^ s = m * 2 ^ (s - (bitLen x - 53)) * 2 ^ (bitLen x - 53) := by
          rw [mul_assoc, ← pow_add, hs]
        rw [e]
        apply Nat.mul_le_mul_right
        rw [Nat.le_div_iff_mul_le (by positivity)]
        rw [← e]
        exact hrx
      · push_neg at hcase
        have hlow := (bitLen_spec x hx0).1
        have hpow1 : (2 : Nat) ^ 52 * 2 ^ (bitLen x - 53) = 2 ^ (bitLen x - 1) := by
          rw [← pow_add]
          congr 1
          omega
        have hdiv : 2 ^ 52 ≤ x / 2 ^ (bitLen x - 53) := by
          rw [Nat.le_div_iff_mul_le (by positivity), hpow1]
          exact hlow
        have hpow2 : (2 : Nat) ^ 53 * 2 ^ (bitLen x - 53 - 1)
            = 2 ^ 52 * 2 ^ (bitLen x - 53) := by
          rw [← pow_add, ← pow_add]
          congr 1
          omega
        calc m * 2 ^ s ≤ 2 ^ 53 * 2 ^ (bitLen x - 53 - 1) :=
              Nat.mul_le_mul hm (Nat.pow_le_pow_right (by norm_num) (by omega))
        _ = 2 ^ 52 * 2 ^ (bitLen x - 53) := hpow2
        _ ≤ x / 2 ^ (bitLen x - 53) * 2 ^ (bitLen x - 53) :=
              Nat.mul_le_mul_right _ hdiv
    calc m * 2 ^ s ≤ x / 2 ^ (bitLen x - 53) * 2 ^ (bitLen x - 53) := key
    _ ≤ rheFrac x (2 ^ (bitLen x - 53)) * 2 ^ (bitLen x - 53) :=
        Nat.mul_le_mul_right _ hge

/-- Invariant of a running float total: infinity, or a finite
representable value. -/
def GoodFl : Fl → Prop
  | .inf => True
  | .finite t => IsRepr t

/-- A float addition preserves the invariant. -/
theorem GoodFl_flAdd (t : Fl) (d : Nat) (h : GoodFl t) : GoodFl (flAdd t d) := by
  cases t with
  | inf => trivial
  | finite q =>
    show GoodFl (if 2 ^ 2098 ≤ roundFrac (q + d) 1 then Fl.inf
      else Fl.finite (roundFrac (q + d) 1))
    split_ifs
    · trivial
    · exact roundFrac_one_repr _

/-- A float addition to a finite representable total never decreases it
(the added deduction is a non-negative double). -/
theorem flAdd_finite_ge (t d t' : Nat) (ht : IsRepr t)
    (h : flAdd (.finite t) d = .finite t') : t ≤ t' := by
  have h' : (if 2 ^ 2098 ≤ roundFrac (t + d) 1 then Fl.inf
      else Fl.finite (roundFrac (t + d) 1)) = .finite t' := h
  by_cases ho : 2 ^ 2098 ≤ roundFrac (t + d) 1
  · rw [if_pos ho] at h'
    exact absurd h' (by simp)
  · rw [if_neg ho] at h'
    have h'' := Fl.finite.inj h'
    rw [← h'']
    exact roundFrac_one_ge_repr (t + d) t ht (Nat.le_add_right t d)

/-- A successful run of the deduction loop keeps the running float total
representable (or infinite). -/
theorem foldlM_scoreStep_good (fs : List Finding) (st out : Fl × SevCounts)
    (hst : GoodFl st.1) (h : fs.foldlM scoreStep st = some out) :
    GoodFl out.1 := by
  induction fs generalizing st with
  | nil =>
    simp only [List.foldlM_nil] at h
    cases h
    exact hst
  | cons f fs ih =>
    rw [List.foldlM_cons] at h
    cases hstep : scoreStep st f with
    | none => rw [hstep] at h; simp at h
    | some mid =>
      rw [hstep] at h
      simp only [Option.bind_eq_bind, Option.some_bind] at h
      refine ih mid ?_ h
      have hmid : mid.1 = flAdd st.1 (roundFrac
          (dictGetD SEVERITY_WEIGHTS f.severity 1 *
            findMultiplier (floatLit 1 1) ISSUE_MULTIPLIERS f.issue) 1) := by
        unfold scoreStep at hstep
        cases hbump : bumpCount st.2 f.severity with
        | none => rw [hbump] at hstep; simp at hstep
        | some counts =>
          rw [hbump] at hstep
          simp only [Option.map_some'] at hstep
          cases hstep
          rfl
      rw [hmid]
      exact GoodFl_flAdd st.1 _ hst

/-- A successful run of the deduction loop computes exactly the rounded
float sum of the claim-side per-finding deductions. -/
theorem foldlM_scoreStep_total (fs : List Finding) (st out : Fl × SevCounts)
    (h : fs.foldlM scoreStep st = some out) :
    out.1 = (fs.map floatDeduction).foldl flAdd st.1 := by
  induction fs generalizing st with
  | nil =>
    simp only [List.foldlM_nil] at h
    cases h
    simp
  | cons f fs ih =>
    rw [List.foldlM_cons] at h
    cases hstep : scoreStep st f with
    | none => rw [hstep] at h; simp at h
    | some mid =>
      rw [hstep] at h
      simp only [Option.bind_eq_bind, Option.some_bind] at h
      have hmid : mid.1 = flAdd st.1 (floatDeduction f) := by
        unfold scoreStep at hstep
        cases hbump : bumpCount st.2 f.severity with
        | none => rw [hbump] at hstep; simp at hstep
        | some counts =>
          rw [hbump] at hstep
          simp only [Option.map_some'] at hstep
          cases hstep
          simp [floatDeduction, findMultiplier_eq_firstMult]
      rw [ih mid h, List.map_cons, List.foldl_cons, hmid]

/-- The deduction loop succeeds whenever every severity is canonical. -/
theorem foldlM_scoreStep_isSome (fs : List Finding) (st : Fl × SevCounts)
    (h : ∀ f ∈ fs, canonicalSeverity f.severity) :
    ∃ out, fs.foldlM scoreStep st = some out := by
  induction fs generalizing st with
  | nil => exact ⟨st, rfl⟩
  | cons f fs ih =>
    have hbump : ∃ counts, bumpCount st.2 f.severity = some counts := by
      rcases h f (List.mem_cons_self f fs) with h1 | h1 | h1 | h1 <;>
        simp [bumpCount, h1, S_CRITICAL, S_HIGH, S_MEDIUM, S_LOW]
    obtain ⟨counts, hcounts⟩ := hbump
    obtain ⟨out, hout⟩ := ih
      (flAdd st.1 (roundFrac (dictGetD SEVERITY_WEIGHTS f.severity 1 *
        findMultiplier (floatLit 1 1) ISSUE_MULTIPLIERS f.issue) 1), counts)
      (fun g hg => h g (List.mem_cons_of_mem f hg))
    refine ⟨out, ?_⟩
    rw [List.foldlM_cons]
    simp [scoreStep, hcounts, hout]

/-! ## Claim C1 -/

/-- A findings list exercising the difference between the claimed phrase
table and the source's: its issue text contains "running as root" but not
"Container running as root". -/
def c1CexFinding : Finding :=
  { scanner := ("DemoScanner".data), severity := S_HIGH,
    pod_name := ("pod-a".data), ns := ("default".data),
    container_name := ("app".data), issue := ("running as root".data),
    compliance := [], category := ("security".data) }

/-- C1 (counterexample): on the finding with issue "running as root" and
severity HIGH the source applies no multiplier (its table phrase is
"Container running as root") and scores 100 - 8 = 92, while the claimed
phrase table gives 100 - int(8 x 1.3) = 90.  The claim as stated is false. -/
theorem c1_counterexample :
    (calculate_pod_score [c1CexFinding]).map (fun r => r.score) = some 92 ∧
    scoreFormula CLAIMED_ISSUE_MULTIPLIERS [c1CexFinding] = 90 := by
  constructor
  · decide
  · decide

/-- C1 (amended): for every findings list whose severities are canonical
(the only lists the scorer accepts without a `KeyError`, cf. C4), the
score `calculate_pod_score` returns is `max(0, 100 - int(total))`, where
`total` is the binary64 float sum, in list order, of the per-finding
deductions — each deduction the once-rounded double product of the
severity weight (CRITICAL 15, HIGH 8, MEDIUM 3, LOW 1) and the
multiplier of the first matching phrase of the source's table
("Hardcoded secret" x1.5, "Container running as root" x1.3, "Container
running in privileged mode" x1.3, "Pod using host network" x1.2,
case-insensitive substring match, at most one multiplier per finding) —
and no result is returned exactly when that float total overflows to
infinity (`int` raises `OverflowError`). -/
theorem c1_theorem (findings : List Finding)
    (h : ∀ f ∈ findings, canonicalSeverity f.severity) :
    (calculate_pod_score findings).map (fun r => r.score) =
      floatScoreOpt findings := by
  by_cases hfs : findings = []
  · subst hfs
    decide
  · obtain ⟨out, hout⟩ :=
      foldlM_scoreStep_isSome findings (.finite 0, ⟨0, 0, 0, 0⟩) h
    have htot : out.1 = (findings.map floatDeduction).foldl flAdd (.finite 0) :=
      foldlM_scoreStep_total findings (.finite 0, ⟨0, 0, 0, 0⟩) out hout
    unfold calculate_pod_score floatScoreOpt floatTotal
    rw [if_neg hfs, hout, ← htot]
    simp only [Option.some_bind]
    cases out.1 with
    | inf => rfl
    | finite total => rfl

/-- Witness for C1: one CRITICAL hardcoded-secret finding, where
15 * 1.5 = 22.5 exactly and both sides give max(0, 100 - 22) = 78. -/
theorem c1_witness :
    (calculate_pod_score
        [{ scanner := ("SecretsInEnvScanner".data), severity := S_CRITICAL,
           pod_name := ("pod-a".data), ns := ("default".data),
           container_name := ("app".data),
           issue := ("Hardcoded secret in environment variable: DB_PASSWORD".data),
           compliance := [], category := ("secrets_management".data) }]).map
        (fun r => r.score) =
      floatScoreOpt
        [{ scanner := ("SecretsInEnvScanner".data), severity := S_CRITICAL,
           pod_name := ("pod-a".data), ns := ("default".data),
           container_name := ("app".data),
           issue := ("Hardcoded secret in environment variable: DB_PASSWORD".data),
           compliance := [], category := ("secrets_management".data) }] :=
  c1_theorem _ (by decide)

/-! ## Claim C4 -/

/-- A finding record whose severity is none of the four canonical names. -/
def c4BadFinding : Finding :=
  { scanner := ("DemoScanner".data), severity := ("UNKNOWN".data),
    pod_name := ("pod-a".data), ns := ("default".data),
    container_name := ("app".data), issue := ("Some issue".data),
    compliance := [], category := ("security".data) }

/-- C4: `calculate_pod_score` does NOT return a result on a finding whose
severity is not canonical: `severity_counts[severity] += 1`
(scoring.py line 74) raises `KeyError`, although the two lines above it
defensively default exactly this case (`finding.get('severity', 'LOW')`,
`SEVERITY_WEIGHTS.get(severity, 1)`) and `scan_pods` deliberately keeps
such findings in its flat list.  `none` is the embedded `KeyError`. -/
theorem c4_keyerror_eval : calculate_pod_score [c4BadFinding] = none := by decide

/-! ## Claim C3 -/

/-- C3: whenever `calculate_pod_score` returns a result (it raises on
non-canonical severities, cf. C4, and on an overflowed float total), the
score of a findings list extended by one more finding is at most the
score of the original list, and every returned score lies in [0, 100].
Proven over the exact binary64 model: one rounded IEEE-754 addition of a
non-negative double to a representable total never decreases it, and
`int()` truncation of the non-negative total is monotone. -/
theorem c3_theorem :
    (∀ findings f r r', calculate_pod_score findings = some r →
      calculate_pod_score (findings ++ [f]) = some r' → r'.score ≤ r.score) ∧
    (∀ findings r, calculate_pod_score findings = some r →
      0 ≤ r.score ∧ r.score ≤ 100) := by
  have hbound : ∀ findings r, calculate_pod_score findings = some r →
      0 ≤ r.score ∧ r.score ≤ 100 := by
    intro findings r h
    unfold calculate_pod_score at h
    by_cases hfs : findings = []
    · rw [if_pos hfs] at h
      cases h
      constructor <;> norm_num
    · rw [if_neg hfs] at h
      cases hfold : List.foldlM scoreStep (Fl.finite 0, ⟨0, 0, 0, 0⟩) findings with
      | none => rw [hfold] at h; exact absurd h (by simp)
      | some tc =>
        rw [hfold] at h
        simp only [Option.some_bind] at h
        cases htc : tc.1 with
        | inf => rw [htc] at h; exact absurd h (by simp)
        | finite total =>
          rw [htc] at h
          cases h
          refine ⟨le_max_left 0 _, max_le (by norm_num) ?_⟩
          have : (0 : Int) ≤ pyIntUnits total := Int.natCast_nonneg _
          omega
  refine ⟨?_, hbound⟩
  intro findings f r r' h h'
  by_cases hfs : findings = []
  · subst hfs
    have h100 : r.score = 100 := by
      unfold calculate_pod_score at h
      rw [if_pos rfl] at h
      cases h
      rfl
    rw [h100]
    exact (hbound _ _ h').2
  · have hne' : findings ++ [f] ≠ [] := by simp
    unfold calculate_pod_score at h h'
    rw [if_neg hfs] at h
    rw [if_neg hne', List.foldlM_append] at h'
    cases hfold : List.foldlM scoreStep (Fl.finite 0, ⟨0, 0, 0, 0⟩) findings with
    | none => rw [hfold] at h; exact absurd h (by simp)
    | some tc =>
      rw [hfold] at h h'
      simp only [Option.bind_eq_bind, Option.some_bind, Option.pure_def,
        List.foldlM_cons, List.foldlM_nil] at h h'
      cases hstep : scoreStep tc f with
      | none => rw [hstep] at h'; exact absurd h' (by simp)
      | some stepped =>
        rw [hstep] at h'
        simp only [Option.some_bind, Option.pure_def] at h'
        have hmid : stepped.1 = flAdd tc.1 (roundFrac
            (dictGetD SEVERITY_WEIGHTS f.severity 1 *
              findMultiplier (floatLit 1 1) ISSUE_MULTIPLIERS f.issue) 1) := by
          unfold scoreStep at hstep
          cases hbump : bumpCount tc.2 f.severity with
          | none => rw [hbump] at hstep; simp at hstep
          | some counts =>
            rw [hbump] at hstep
            simp only [Option.map_some'] at hstep
            cases hstep
            rfl
        cases htc : tc.1 with
        | inf => rw [htc] at h; exact absurd h (by simp)
        | finite t =>
          rw [htc] at h
          cases hstepped : stepped.1 with
          | inf => rw [hstepped] at h'; exact absurd h' (by simp)
          | finite t' =>
            rw [hstepped] at h'
            have hrepr : IsRepr t := by
              have hg := foldlM_scoreStep_good findings
                (Fl.finite 0, ⟨0, 0, 0, 0⟩) tc ⟨0, 0, Nat.zero_le _, by norm_num⟩ hfold
              rw [htc] at hg
              exact hg
            have hgrow : t ≤ t' := by
              rw [htc, hstepped] at hmid
              exact flAdd_finite_ge t _ t' hrepr hmid.symm
            cases h
            cases h'
            show (max 0 (100 - pyIntUnits t') : Int) ≤ max 0 (100 - pyIntUnits t)
            have hdiv : pyIntUnits t ≤ pyIntUnits t' :=
              Int.ofNat_le.mpr (Nat.div_le_div_right hgrow)
            exact max_le_max le_rfl (by omega)

/-! ## Claim C2 -/

/-- The bucketing loop of `scan_pods` accumulates, per bucket, exactly the
findings of that severity, in their original relative order. -/
theorem bucket_foldl (fs : List Finding) (b : FindingsBySeverity) :
    (fs.foldl bucketStep b).critical =
        b.critical ++ fs.filter (fun f => decide (f.severity = S_CRITICAL)) ∧
    (fs.foldl bucketStep b).high =
        b.high ++ fs.filter (fun f => decide (f.severity = S_HIGH)) ∧
    (fs.foldl bucketStep b).medium =
        b.medium ++ fs.filter (fun f => decide (f.severity = S_MEDIUM)) ∧
    (fs.foldl bucketStep b).low =
        b.low ++ fs.filter (fun f => decide (f.severity = S_LOW)) := by
  induction fs generalizing b with
  | nil => simp
  | cons f fs ih =>
    simp only [List.foldl_cons, List.filter_cons]
    by_cases h1 : f.severity = S_CRITICAL
    · have hstep : bucketStep b f = { b with critical := b.critical ++ [f] } := by
        unfold bucketStep
        rw [if_pos h1]
      rw [hstep]
      obtain ⟨i1, i2, i3, i4⟩ := ih { b with critical := b.critical ++ [f] }
      refine ⟨?_, ?_, ?_, ?_⟩ <;>
        simp [i1, i2, i3, i4, h1, S_CRITICAL, S_HIGH, S_MEDIUM, S_LOW]
    · by_cases h2 : f.severity = S_HIGH
      · have hstep : bucketStep b f = { b with high := b.high ++ [f] } := by
          unfold bucketStep
          rw [if_neg h1, if_pos h2]
        rw [hstep]
        obtain ⟨i1, i2, i3, i4⟩ := ih { b with high := b.high ++ [f] }
        refine ⟨?_, ?_, ?_, ?_⟩ <;>
          simp [i1, i2, i3, i4, h1, h2, S_CRITICAL, S_HIGH, S_MEDIUM, S_LOW]
      · by_cases h3 : f.severity = S_MEDIUM
        · have hstep : bucketStep b f = { b with medium := b.medium ++ [f] } := by
            unfold bucketStep
            rw [if_neg h1, if_neg h2, if_pos h3]
          rw [hstep]
          obtain ⟨i1, i2, i3, i4⟩ := ih { b with medium := b.medium ++ [f] }
          refine ⟨?_, ?_, ?_, ?_⟩ <;>
            simp [i1, i2, i3, i4, h1, h2, h3, S_CRITICAL, S_HIGH, S_MEDIUM, S_LOW]
        · by_cases h4 : f.severity = S_LOW
          · have hstep : bucketStep b f = { b with low := b.low ++ [f] } := by
              unfold bucketStep
              rw [if_neg h1, if_neg h2, if_neg h3, if_pos h4]
            rw [hstep]
            obtain ⟨i1, i2, i3, i4⟩ := ih { b with low := b.low ++ [f] }
            refine ⟨?_, ?_, ?_, ?_⟩ <;>
              simp [i1, i2, i3, i4, h1, h2, h3, h4, S_CRITICAL, S_HIGH, S_MEDIUM, S_LOW]
          · have hstep : bucketStep b f = b := by
              unfold bucketStep
              rw [if_neg h1, if_neg h2, if_neg h3, if_neg h4]
            rw [hstep]
            obtain ⟨i1, i2, i3, i4⟩ := ih b
            refine ⟨?_, ?_, ?_, ?_⟩ <;>
              simp [i1, i2, i3, i4, h1, h2, h3, h4]

/-- C2: `scan_pods` flattens the per-pod scans in input order into
`all_findings`, reports its length as `total_findings`, and each severity
bucket holds exactly the flat-list findings with that severity in their
original relative order; a finding with a severity outside the four names
stays in the flat list but lands in no bucket. -/
theorem c2_theorem (pods : List Pod) :
    (scan_pods pods).all_findings = pods.flatMap scan_pod ∧
    (scan_pods pods).total_findings = (scan_pods pods).all_findings.length ∧
    (scan_pods pods).findings_by_severity.critical =
      (scan_pods pods).all_findings.filter (fun f => decide (f.severity = S_CRITICAL)) ∧
    (scan_pods pods).findings_by_severity.high =
      (scan_pods pods).all_findings.filter (fun f => decide (f.severity = S_HIGH)) ∧
    (scan_pods pods).findings_by_severity.medium =
      (scan_pods pods).all_findings.filter (fun f => decide (f.severity = S_MEDIUM)) ∧
    (scan_pods pods).findings_by_severity.low =
      (scan_pods pods).all_findings.filter (fun f => decide (f.severity = S_LOW)) ∧
    (∀ f ∈ (scan_pods pods).all_findings, ¬canonicalSeverity f.severity →
      f ∉ (scan_pods pods).findings_by_severity.critical ∧
      f ∉ (scan_pods pods).findings_by_severity.high ∧
      f ∉ (scan_pods pods).findings_by_severity.medium ∧
      f ∉ (scan_pods pods).findings_by_severity.low) := by
  have hall : (scan_pods pods).all_findings = pods.flatMap scan_pod := by
    show pods.foldl (fun acc pod => acc ++ scan_pod pod) [] = pods.flatMap scan_pod
    rw [foldl_append_acc]
    rfl
  obtain ⟨b1, b2, b3, b4⟩ :=
    bucket_foldl ((scan_pods pods).all_findings) ⟨[], [], [], []⟩
  have hb1 : (scan_pods pods).findings_by_severity.critical =
      (scan_pods pods).all_findings.filter (fun f => decide (f.severity = S_CRITICAL)) := by
    exact b1
  have hb2 : (scan_pods pods).findings_by_severity.high =
      (scan_pods pods).all_findings.filter (fun f => decide (f.severity = S_HIGH)) := by
    exact b2
  have hb3 : (scan_pods pods).findings_by_severity.medium =
      (scan_pods pods).all_findings.filter (fun f => decide (f.severity = S_MEDIUM)) := by
    exact b3
  have hb4 : (scan_pods pods).findings_by_severity.low =
      (scan_pods pods).all_findings.filter (fun f => decide (f.severity = S_LOW)) := by
    exact b4
  refine ⟨hall, rfl, hb1, hb2, hb3, hb4, ?_⟩
  intro f _ hnc
  refine ⟨?_, ?_, ?_, ?_⟩
  · rw [hb1]
    intro hmem
    exact hnc (Or.inl (by simpa using (List.mem_filter.mp hmem).2))
  · rw [hb2]
    intro hmem
    exact hnc (Or.inr (Or.inl (by simpa using (List.mem_filter.mp hmem).2)))
  · rw [hb3]
    intro hmem
    exact hnc (Or.inr (Or.inr (Or.inl (by simpa using (List.mem_filter.mp hmem).2))))
  · rw [hb4]
    intro hmem
    exact hnc (Or.inr (Or.inr (Or.inr (by simpa using (List.mem_filter.mp hmem).2))))

/-! ## Claim C5 -/

/-- The grouping double loop equals one fold over the flat reference
stream. -/
theorem collect_go (findings : List Finding) (gs : List (Str × List Violation)) :
    findings.foldl (fun groups f =>
      f.compliance.foldl (fun gs2 ref =>
        addViolation gs2 (frameworkOf ref)
          { reference := ref, issue := f.issue, severity := f.severity,
            pod := f.pod_name }) groups) gs =
    (refPairs findings).foldl (fun gs2 kv => addViolation gs2 kv.1 kv.2) gs := by
  induction findings generalizing gs with
  | nil => rfl
  | cons f fs ih =>
    simp only [List.foldl_cons, refPairs, List.flatMap_cons, List.foldl_append]
    rw [ih]
    congr 1
    rw [List.foldl_map]

/-- `collectViolations` as a fold over the flat reference stream. -/
theorem collectViolations_eq_foldPairs (findings : List Finding) :
    collectViolations findings =
      (refPairs findings).foldl (fun gs kv => addViolation gs kv.1 kv.2) [] :=
  collect_go findings []

/-- `lookupGroup` on the empty group list. -/
theorem lookupGroup_nil (k : Str) : lookupGroup [] k = [] := rfl

/-- `lookupGroup` on a cons cell. -/
theorem lookupGroup_cons (k0 : Str) (vs0 : List Violation)
    (rest : List (Str × List Violation)) (k : Str) :
    lookupGroup ((k0, vs0) :: rest) k = if k0 = k then vs0 else lookupGroup rest k := by
  unfold lookupGroup
  rw [List.find?_cons]
  by_cases h : k0 = k
  · simp [h]
  · simp [h]

/-- `addViolation` on a cons cell with a matching key. -/
theorem addViolation_cons_eq (k0 : Str) (vs0 : List Violation)
    (rest : List (Str × List Violation)) (k : Str) (v : Violation) (h : k0 = k) :
    addViolation ((k0, vs0) :: rest) k v = (k0, vs0 ++ [v]) :: rest := by
  simp [addViolation, h]

/-- `addViolation` on a cons cell with a different key. -/
theorem addViolation_cons_ne (k0 : Str) (vs0 : List Violation)
    (rest : List (Str × List Violation)) (k : Str) (v : Violation) (h : ¬k0 = k) :
    addViolation ((k0, vs0) :: rest) k v = (k0, vs0) :: addViolation rest k v := by
  simp [addViolation, h]

/-- Appending one violation updates exactly its framework's list. -/
theorem lookupGroup_addViolation (gs : List (Str × List Violation))
    (k k' : Str) (v : Violation) :
    lookupGroup (addViolation gs k v) k' =
      if k' = k then lookupGroup gs k ++ [v] else lookupGroup gs k' := by
  induction gs with
  | nil =>
    show lookupGroup [(k, [v])] k' = _
    simp only [lookupGroup_cons, lookupGroup_nil]
    by_cases h : k' = k
    · simp [h]
    · have hne : ¬k = k' := fun hh => h hh.symm
      simp [h, hne]
  | cons kv rest ih =>
    obtain ⟨k0, vs0⟩ := kv
    by_cases hk : k0 = k
    · rw [addViolation_cons_eq k0 vs0 rest k v hk]
      simp only [lookupGroup_cons]
      by_cases h' : k' = k
      · subst h'
        simp [hk]
      · have hne : ¬k0 = k' := fun hh => h' ((hk.symm.trans hh).symm)
        simp [hne, h']
    · rw [addViolation_cons_ne k0 vs0 rest k v hk]
      simp only [lookupGroup_cons]
      rw [ih]
      by_cases h' : k0 = k'
      · have hkk : ¬k' = k := fun hh => hk (h'.trans hh)
        simp [h', hkk]
      · by_cases h2 : k' = k
        · simp [h', h2, hk]
        · simp [h', h2]

/-- Folding the flat reference stream accumulates, per framework, exactly
its order-preserving projection of that stream. -/
theorem lookupGroup_foldPairs (pairs : List (Str × Violation))
    (gs : List (Str × List Violation)) (fw : Str) :
    lookupGroup (pairs.foldl (fun g kv => addViolation g kv.1 kv.2) gs) fw =
      lookupGroup gs fw ++ valuesFor pairs fw := by
  induction pairs generalizing gs with
  | nil => simp [valuesFor]
  | cons kv rest ih =>
    obtain ⟨k, v⟩ := kv
    simp only [List.foldl_cons]
    rw [ih, lookupGroup_addViolation]
    by_cases h : fw = k
    · subst h
      simp [valuesFor]
    · have hne : ¬k = fw := fun hh => h hh.symm
      simp [valuesFor, h, hne]

/-- `addViolation` keeps the key list, or appends the one new key. -/
theorem keys_addViolation (gs : List (Str × List Violation)) (k : Str) (v : Violation) :
    (addViolation gs k v).map Prod.fst =
      if k ∈ gs.map Prod.fst then gs.map Prod.fst else gs.map Prod.fst ++ [k] := by
  induction gs with
  | nil => simp [addViolation]
  | cons kv rest ih =>
    obtain ⟨k0, vs0⟩ := kv
    by_cases hk : k0 = k
    · rw [addViolation_cons_eq k0 vs0 rest k v hk]
      simp [hk]
    · rw [addViolation_cons_ne k0 vs0 rest k v hk]
      have hne : ¬k = k0 := fun hh => hk hh.symm
      simp only [List.map_cons, List.mem_cons, hne, false_or]
      rw [ih]
      by_cases hmem : k ∈ rest.map Prod.fst
      · simp [hmem]
      · simp [hmem]

/-- The grouping fold keeps the framework keys distinct. -/
theorem keys_nodup_foldPairs (pairs : List (Str × Violation))
    (gs : List (Str × List Violation))
    (h : (gs.map Prod.fst).Nodup) :
    (((pairs.foldl (fun g kv => addViolation g kv.1 kv.2) gs)).map Prod.fst).Nodup := by
  induction pairs generalizing gs with
  | nil => exact h
  | cons kv rest ih =>
    simp only [List.foldl_cons]
    apply ih
    rw [keys_addViolation]
    by_cases hmem : kv.1 ∈ gs.map Prod.fst
    · simpa [hmem] using h
    · simp only [hmem, if_false]
      simp [List.nodup_append, h, hmem]

/-- With distinct keys, membership determines the lookup. -/
theorem lookupGroup_of_mem (gs : List (Str × List Violation))
    (h : (gs.map Prod.fst).Nodup) (k : Str) (vs : List Violation)
    (hm : (k, vs) ∈ gs) : lookupGroup gs k = vs := by
  induction gs with
  | nil => cases hm
  | cons kv rest ih =>
    obtain ⟨k0, vs0⟩ := kv
    rw [lookupGroup_cons]
    rcases List.mem_cons.mp hm with heq | htail
    · cases heq
      simp
    · have h' := h
      rw [List.map_cons, List.nodup_cons] at h'
      have hk0 : ¬k0 = k := by
        intro hh
        subst hh
        exact h'.1 (List.mem_map.mpr ⟨(k0, vs), htail, rfl⟩)
      rw [if_neg hk0]
      exact ih h'.2 htail

/-- `addViolation` never creates an empty violation list. -/
theorem addViolation_ne_nil (gs : List (Str × List Violation)) (k : Str) (v : Violation)
    (h : ∀ kv ∈ gs, kv.2 ≠ []) : ∀ kv ∈ addViolation gs k v, kv.2 ≠ [] := by
  induction gs with
  | nil =>
    intro kv hkv
    simp [addViolation] at hkv
    subst hkv
    simp
  | cons kv0 rest ih =>
    obtain ⟨k0, vs0⟩ := kv0
    by_cases hk : k0 = k
    · rw [addViolation_cons_eq k0 vs0 rest k v hk]
      intro kv hkv
      rcases List.mem_cons.mp hkv with heq | htail
      · subst heq
        simp
      · exact h kv (List.mem_cons_of_mem _ htail)
    · rw [addViolation_cons_ne k0 vs0 rest k v hk]
      intro kv hkv
      rcases List.mem_cons.mp hkv with heq | htail
      · subst heq
        exact h (k0, vs0) (List.mem_cons_self _ _)
      · exact ih (fun kv2 hkv2 => h kv2 (List.mem_cons_of_mem _ hkv2)) kv htail

/-- The grouping fold never stores an empty violation list. -/
theorem foldPairs_ne_nil (pairs : List (Str × Violation))
    (gs : List (Str × List Violation)) (h : ∀ kv ∈ gs, kv.2 ≠ []) :
    ∀ kv ∈ pairs.foldl (fun g p => addViolation g p.1 p.2) gs, kv.2 ≠ [] := by
  induction pairs generalizing gs with
  | nil => exact h
  | cons p rest ih =>
    simp only [List.foldl_cons]
    exact ih _ (addViolation_ne_nil gs p.1 p.2 h)

/-- The C5 example: the sole CIS violation, severity CRITICAL, tagged
`["CIS-5.2.1"]`. -/
def c5CisFinding : Finding :=
  { scanner := ("PrivilegedScanner".data), severity := S_CRITICAL,
    pod_name := ("pod-a".data), ns := ("default".data),
    container_name := ("app".data),
    issue := ("Container running in privileged mode".data),
    compliance := [("CIS-5.2.1".data)], category := ("pod_security".data) }

/-- C5: `analyze_compliance` groups, per framework code (the reference up to
the first dash), exactly the order-preserving projection of the findings'
reference stream; each affected framework scores
`max(0, 60 - 10*critical - 5*high)` when it has a CRITICAL violation, else
`max(0, 80 - 5*high)` when it has a HIGH violation, else 90, with the
staircase status; and the single CRITICAL `["CIS-5.2.1"]` finding yields
framework "CIS" at 50 percent, PARTIALLY_COMPLIANT. -/
theorem c5_theorem (findings : List Finding) :
    (∀ fw vs, (fw, vs) ∈ (analyze_compliance findings).framework_violations →
      vs = valuesFor (refPairs findings) fw ∧ vs ≠ []) ∧
    (∀ fw s, (fw, s) ∈ (analyze_compliance findings).framework_scores →
      ∃ vs, (fw, vs) ∈ (analyze_compliance findings).framework_violations ∧
        s.critical_violations = vs.countP (fun v => decide (v.severity = S_CRITICAL)) ∧
        s.high_violations = vs.countP (fun v => decide (v.severity = S_HIGH)) ∧
        s.total_violations = vs.length ∧
        s.compliance_percentage =
          (if ∃ v ∈ vs, v.severity = S_CRITICAL then
            max 0 ((60 : Int) - s.critical_violations * 10 - s.high_violations * 5)
          else if ∃ v ∈ vs, v.severity = S_HIGH then
            max 0 ((80 : Int) - s.high_violations * 5)
          else 90) ∧
        s.status = _get_compliance_status s.compliance_percentage) ∧
    (analyze_compliance findings).total_frameworks_affected =
      (analyze_compliance findings).framework_violations.length ∧
    (analyze_compliance [c5CisFinding]).framework_scores =
      [(("CIS".data),
        { compliance_percentage := 50, total_violations := 1,
          critical_violations := 1, high_violations := 0,
          status := ("PARTIALLY_COMPLIANT".data) })] := by
  have hfv : (analyze_compliance findings).framework_violations =
      (refPairs findings).foldl (fun g kv => addViolation g kv.1 kv.2) [] :=
    collectViolations_eq_foldPairs findings
  have hgroup : ∀ fw vs,
      (fw, vs) ∈ (analyze_compliance findings).framework_violations →
      vs = valuesFor (refPairs findings) fw ∧ vs ≠ [] := by
    intro fw vs hm
    rw [hfv] at hm
    have hnodup := keys_nodup_foldPairs (refPairs findings) [] (by simp)
    have hlook := lookupGroup_of_mem _ hnodup fw vs hm
    have hfold := lookupGroup_foldPairs (refPairs findings) [] fw
    rw [lookupGroup_nil] at hfold
    refine ⟨?_, foldPairs_ne_nil (refPairs findings) [] (by simp) (fw, vs) hm⟩
    rw [← hlook, hfold]
    simp
  refine ⟨hgroup, ?_, rfl, by decide⟩
  intro fw s hm
  have hsc : (analyze_compliance findings).framework_scores =
      (analyze_compliance findings).framework_violations.map
        (fun kv => (kv.1, scoreForViolations kv.2)) := rfl
  rw [hsc] at hm
  obtain ⟨kv, hkv, heq⟩ := List.mem_map.mp hm
  obtain ⟨k0, vs0⟩ := kv
  injection heq with h1 h2
  subst h1
  subst h2
  refine ⟨vs0, hkv, rfl, rfl, rfl, ?_, rfl⟩
  show (scoreForViolations vs0).compliance_percentage = _
  simp only [scoreForViolations]
  by_cases hc : ∃ v ∈ vs0, v.severity = S_CRITICAL
  · have hpos : 0 < vs0.countP (fun v => decide (v.severity = S_CRITICAL)) :=
      List.countP_pos_iff.mpr (by simpa using hc)
    rw [if_pos hc, if_pos hpos]
  · have hzero : ¬0 < vs0.countP (fun v => decide (v.severity = S_CRITICAL)) := by
      intro hpos
      exact hc (by simpa using List.countP_pos_iff.mp hpos)
    rw [if_neg hc, if_neg hzero]
    by_cases hh : ∃ v ∈ vs0, v.severity = S_HIGH
    · have hpos : 0 < vs0.countP (fun v => decide (v.severity = S_HIGH)) :=
        List.countP_pos_iff.mpr (by simpa using hh)
      rw [if_pos hh, if_pos hpos]
    · have hzero2 : ¬0 < vs0.countP (fun v => decide (v.severity = S_HIGH)) := by
        intro hpos
        exact hh (by simpa using List.countP_pos_iff.mp hpos)
      rw [if_neg hh, if_neg hzero2]

/-! ## Claim C6 -/

/-- C6: a container whose security context sets `runAsUser = 0` contributes
exactly one finding to the root-user rule, with severity CRITICAL, whatever
`runAsNonRoot` (set, unset, true or false) and whatever the pod-level
security context say; the rule's scan is the concatenation of these
per-container contributions. -/
theorem c6_theorem (pod : Pod) (container : Container) (sc : SecurityContext)
    (_hmem : container ∈ pod.spec.containers)
    (hsc : container.security_context = some sc)
    (hroot : sc.run_as_user = some 0) :
    rootUserCheckContainer pod.spec.security_context pod.metadata.name
        pod.metadata.ns container =
      [_create_root_finding pod.metadata.name pod.metadata.ns container.name
        ("Explicitly running as root (runAsUser: 0)".data)] ∧
    (_create_root_finding pod.metadata.name pod.metadata.ns container.name
      ("Explicitly running as root (runAsUser: 0)".data)).severity = S_CRITICAL ∧
    rootUserScan pod = pod.spec.containers.flatMap
      (rootUserCheckContainer pod.spec.security_context pod.metadata.name
        pod.metadata.ns) := by
  refine ⟨?_, rfl, rfl⟩
  unfold rootUserCheckContainer
  rw [hsc]
  simp [hroot]

/-- Witness for C6: a pod whose only container explicitly sets
`runAsUser = 0` together with `runAsNonRoot = true`, under a pod-level
security context with `runAsUser = 1000`. -/
theorem c6_witness :
    rootUserCheckContainer (some { run_as_user := some 1000 }) ("demo".data)
        ("default".data)
        { name := ("app".data), image := ("gcr.io/p/app:1.0".data),
          security_context := some
            { run_as_user := some 0, run_as_non_root := some true,
              privileged := none, allow_privilege_escalation := none,
              read_only_root_filesystem := none, capabilities := none },
          resources := none, env := none } =
      [_create_root_finding ("demo".data) ("default".data) ("app".data)
        ("Explicitly running as root (runAsUser: 0)".data)] :=
  (c6_theorem
    { metadata := { name := ("demo".data), ns := ("default".data) },
      spec :=
        { containers :=
            [{ name := ("app".data), image := ("gcr.io/p/app:1.0".data),
               security_context := some
                 { run_as_user := some 0, run_as_non_root := some true,
                   privileged := none, allow_privilege_escalation := none,
                   read_only_root_filesystem := none, capabilities := none },
               resources := none, env := none }],
          security_context := some { run_as_user := some 1000 } } }
    { name := ("app".data), image := ("gcr.io/p/app:1.0".data),
      security_context := some
        { run_as_user := some 0, run_as_non_root := some true,
          privileged := none, allow_privilege_escalation := none,
          read_only_root_filesystem := none, capabilities := none },
      resources := none, env := none }
    { run_as_user := some 0, run_as_non_root := some true,
      privileged := none, allow_privilege_escalation := none,
      read_only_root_filesystem := none, capabilities := none }
    (by decide) (by decide) (by decide)).1

/-! ## Claim C7 -/

/-- Test fixture: a single-container pod adding the given capabilities. -/
def capPod (caps : List Str) : Pod :=
  { metadata := { name := ("demo".data), ns := ("default".data) },
    spec :=
      { containers :=
          [{ name := ("app".data), image := ("gcr.io/p/app:1.0".data),
             security_context := some
               { run_as_user := none, run_as_non_root := none, privileged := none,
                 allow_privilege_escalation := none,
                 read_only_root_filesystem := none,
                 capabilities := some { add := some caps } },
             resources := none, env := none }],
        security_context := none } }

/-- C7 (counterexample): for the added capability "SYS_CAP_ADMIN" the
upper-cased name has no `CAP_` prefix, so under the claimed prefix-strip
normalization no dangerous capability is found and no finding is produced;
the source's `replace('CAP_', '')` deletes the interior occurrence, yields
"SYS_ADMIN", and produces a HIGH finding.  The claim as stated is false. -/
theorem c7_counterexample :
    (capabilitiesScan (capPod [("SYS_CAP_ADMIN".data)])).map (fun f => f.severity) =
      [S_HIGH] ∧
    claimCapsScan (capPod [("SYS_CAP_ADMIN".data)]) = [] := by
  constructor
  · decide
  · decide

/-- The severity of a capabilities finding is HIGH or MEDIUM, by the
SYS_ADMIN / SYS_MODULE test. -/
theorem caps_finding_severity (a b c : Str) (d : List Str) :
    (_create_caps_finding a b c d).severity = S_HIGH ∨
    (_create_caps_finding a b c d).severity = S_MEDIUM := by
  unfold _create_caps_finding create_finding
  dsimp only
  by_cases h : ("SYS_ADMIN".data) ∈ d ∨ ("SYS_MODULE".data) ∈ d
  · left
    rw [if_pos h]
  · right
    rw [if_neg h]

/-- C7 (amended): the capabilities rule normalizes each added capability by
upper-casing and removing EVERY occurrence of "CAP_" (Python `replace`,
not a prefix strip) before testing membership in the fixed dangerous set;
a finding exists for a container exactly when some added capability
normalizes into the dangerous set, and it is HIGH exactly when the
normalized dangerous names include SYS_ADMIN or SYS_MODULE, else MEDIUM;
CAP_SYS_ADMIN in any letter case gives HIGH, NET_RAW alone gives MEDIUM. -/
theorem c7_theorem :
    (∀ cap, normalizeCap cap = replaceAll (strUpper cap) ("CAP_".data) []) ∧
    (∀ cap, strUpper cap = ("CAP_SYS_ADMIN".data) →
      normalizeCap cap = ("SYS_ADMIN".data)) ∧
    (∀ pod f, f ∈ capabilitiesScan pod → f.severity = S_HIGH ∨ f.severity = S_MEDIUM) ∧
    (∀ pod_name ns container_name dangerous,
      (_create_caps_finding pod_name ns container_name dangerous).severity =
        (if ("SYS_ADMIN".data) ∈ dangerous ∨ ("SYS_MODULE".data) ∈ dangerous
          then S_HIGH else S_MEDIUM)) ∧
    (∀ meta psc c,
      capabilitiesScan
          { metadata := meta,
            spec := { containers := [c], security_context := psc } } ≠ [] ↔
        ∃ sc caps add, c.security_context = some sc ∧
          sc.capabilities = some caps ∧ caps.add = some add ∧
          ∃ cap ∈ add, normalizeCap cap ∈ DANGEROUS_CAPABILITIES) ∧
    (capabilitiesScan (capPod [("CAP_sys_admin".data)])).map (fun f => f.severity) =
      [S_HIGH] ∧
    (capabilitiesScan (capPod [("NET_RAW".data)])).map (fun f => f.severity) =
      [S_MEDIUM] := by
  refine ⟨fun cap => rfl, ?_, ?_, fun a b c d => rfl, ?_, by decide, by decide⟩
  · intro cap hcap
    unfold normalizeCap
    rw [hcap]
    decide
  · intro pod f hf
    simp only [capabilitiesScan, List.mem_flatMap] at hf
    obtain ⟨c, _, hf⟩ := hf
    cases hsc : c.security_context with
    | none => rw [hsc] at hf; simp at hf
    | some sc =>
      rw [hsc] at hf
      dsimp only at hf
      cases hcaps : sc.capabilities with
      | none => rw [hcaps] at hf; simp at hf
      | some caps =>
        rw [hcaps] at hf
        dsimp only at hf
        cases hadd : caps.add with
        | none => rw [hadd] at hf; simp at hf
        | some add =>
          rw [hadd] at hf
          dsimp only at hf
          split_ifs at hf with h1 h2
          · simp only [List.mem_singleton] at hf
            subst hf
            exact caps_finding_severity _ _ _ _
          · simp at hf
          · simp at hf
  · intro meta psc c
    constructor
    · intro hne
      simp only [capabilitiesScan, List.flatMap_cons, List.flatMap_nil,
        List.append_nil] at hne
      cases hsc : c.security_context with
      | none => rw [hsc] at hne; exact absurd rfl hne
      | some sc =>
        rw [hsc] at hne
        dsimp only at hne
        cases hcaps : sc.capabilities with
        | none => rw [hcaps] at hne; exact absurd rfl hne
        | some caps =>
          rw [hcaps] at hne
          dsimp only at hne
          cases hadd : caps.add with
          | none => rw [hadd] at hne; exact absurd rfl hne
          | some add =>
            rw [hadd] at hne
            dsimp only at hne
            split_ifs at hne with h1 h2
            · obtain ⟨x, hx⟩ := List.exists_mem_of_ne_nil _ h2
              have hx' := List.mem_filter.mp hx
              obtain ⟨cap, hcap, hcapx⟩ := List.mem_map.mp hx'.1
              exact ⟨sc, caps, add, rfl, hcaps, hadd, cap, hcap,
                by rw [hcapx]; simpa using hx'.2⟩
            · exact absurd rfl hne
            · exact absurd rfl hne
    · rintro ⟨sc, caps, add, hsc, hcaps, hadd, cap, hcap, hdang⟩
      simp only [capabilitiesScan, List.flatMap_cons, List.flatMap_nil,
        List.append_nil]
      rw [hsc]
      dsimp only
      rw [hcaps]
      dsimp only
      rw [hadd]
      dsimp only
      have hne : add ≠ [] := List.ne_nil_of_mem hcap
      have hmemf : normalizeCap cap ∈
          (add.map normalizeCap).filter (fun x => x ∈ DANGEROUS_CAPABILITIES) :=
        List.mem_filter.mpr ⟨List.mem_map.mpr ⟨cap, hcap, rfl⟩, by simpa using hdang⟩
      have hdne := List.ne_nil_of_mem hmemf
      rw [if_pos hne, if_pos hdne]
      simp

/-! ## Claim C8 -/

/-- The safe-patterns-first short-circuit of `_is_likely_secret` equals the
two-condition characterization: no safe substring and some secret
substring. -/
theorem is_likely_secret_iff (var_name : Str) :
    _is_likely_secret var_name = true ↔
      (¬∃ safe ∈ SAFE_PATTERNS, hasSub (strUpper var_name) safe = true) ∧
      (∃ pattern ∈ SECRET_PATTERNS, hasSub (strUpper var_name) pattern = true) := by
  unfold _is_likely_secret
  by_cases hsafe : SAFE_PATTERNS.any (fun safe => hasSub (strUpper var_name) safe) = true
  · rw [if_pos hsafe]
    have hex : ∃ safe ∈ SAFE_PATTERNS, hasSub (strUpper var_name) safe = true := by
      simpa [List.any_eq_true] using hsafe
    simp [hex]
  · rw [if_neg hsafe]
    have hnex : ¬∃ safe ∈ SAFE_PATTERNS, hasSub (strUpper var_name) safe = true := by
      intro hex
      exact hsafe (by simpa [List.any_eq_true] using hex)
    simp [hnex, List.any_eq_true]

/-- The C8 counterexample input: `DB_PASSWORD` carrying the inline literal
value `""` (present, not from a reference object). -/
def c8CexEnvVar : EnvVar :=
  { name := ("DB_PASSWORD".data), value := some [], value_from := false }

/-- C8 (counterexample): `DB_PASSWORD` with the inline literal value `""`
satisfies every condition of the claim (no safe substring, a secret
substring, not reference-sourced, an inline value present), yet the rule
produces no finding, because `elif env_var.value:` is falsy on the empty
string.  The claim's "carries an inline literal value" is false as stated. -/
theorem c8_counterexample :
    claimSecretCondition c8CexEnvVar ∧
    secretsEnvVarCheck ("demo".data) ("default".data) ("app".data) c8CexEnvVar = [] := by
  constructor
  · decide
  · decide

/-- C8 (amended): an env var is flagged iff its upper-cased name has no safe
substring, has at least one secret substring, is not sourced from a
reference object, and carries a NON-EMPTY inline literal value; every
produced finding is CRITICAL; `_mask_value` (interpolated into the finding
prose) keeps the first and last 2 characters, or returns "****" for values
of length at most 4; `DB_PORT` never flags; `DB_PASSWORD` with a non-empty
inline value always flags and from a reference object never does. -/
theorem c8_theorem :
    (∀ pod_name ns container_name e,
      secretsEnvVarCheck pod_name ns container_name e ≠ [] ↔
        (¬∃ safe ∈ SAFE_PATTERNS, hasSub (strUpper e.name) safe = true) ∧
        (∃ pattern ∈ SECRET_PATTERNS, hasSub (strUpper e.name) pattern = true) ∧
        e.value_from = false ∧ ∃ v, e.value = some v ∧ v ≠ []) ∧
    (∀ pod_name ns container_name e f,
      f ∈ secretsEnvVarCheck pod_name ns container_name e →
        f.severity = S_CRITICAL) ∧
    (∀ v : Str, (v.length ≤ 4 → _mask_value v = ("****".data)) ∧
      (4 < v.length →
        _mask_value v = v.take 2 ++ ("...".data) ++ v.drop (v.length - 2))) ∧
    (∀ pod, secretsInEnvScan pod = pod.spec.containers.flatMap (fun container =>
      match container.env with
      | some env => env.flatMap
          (secretsEnvVarCheck pod.metadata.name pod.metadata.ns container.name)
      | none => [])) ∧
    (∀ pod_name ns container_name v vf,
      secretsEnvVarCheck pod_name ns container_name
        { name := ("DB_PORT".data), value := v, value_from := vf } = []) ∧
    (∀ pod_name ns container_name v, v ≠ [] →
      secretsEnvVarCheck pod_name ns container_name
        { name := ("DB_PASSWORD".data), value := some v, value_from := false } =
        [_create_secret_finding pod_name ns container_name ("DB_PASSWORD".data) v]) ∧
    (∀ pod_name ns container_name v,
      secretsEnvVarCheck pod_name ns container_name
        { name := ("DB_PASSWORD".data), value := v, value_from := true } = []) := by
  refine ⟨?_, ?_, ?_, fun pod => rfl, ?_, ?_, ?_⟩
  · intro pn ns cn e
    unfold secretsEnvVarCheck
    by_cases hsec : _is_likely_secret e.name = true
    · rw [if_pos hsec]
      rw [is_likely_secret_iff] at hsec
      by_cases hvf : e.value_from
      · simp [hvf]
      · simp only [hvf, Bool.false_eq_true, if_false]
        cases hval : e.value with
        | none => simp [pyTruthyStr, hsec.1, hsec.2, hvf]
        | some v =>
          by_cases hv : v = []
          · subst hv
            simp [pyTruthyStr, hsec.1, hsec.2, hvf]
          · simp [pyTruthyStr, hsec.1, hsec.2, hvf, hv, List.isEmpty_iff]
    · rw [if_neg hsec]
      rw [is_likely_secret_iff] at hsec
      simp only [ne_eq, not_true_eq_false, false_iff, not_and]
      intro h1 h2
      exact absurd ⟨h1, h2⟩ hsec
  · intro pn ns cn e f hf
    unfold secretsEnvVarCheck at hf
    split_ifs at hf <;> simp at hf
    subst hf
    rfl
  · intro v
    constructor
    · intro h
      unfold _mask_value
      rw [if_pos h]
    · intro h
      unfold _mask_value
      rw [if_neg (by omega)]
  · intro pn ns cn v vf
    simp [secretsEnvVarCheck,
      show _is_likely_secret ("DB_PORT".data) = false from by decide]
  · intro pn ns cn v hv
    cases v with
    | nil => exact absurd rfl hv
    | cons a t =>
      simp [secretsEnvVarCheck, pyTruthyStr,
        show _is_likely_secret ("DB_PASSWORD".data) = true from by decide]
  · intro pn ns cn v
    simp [secretsEnvVarCheck,
      show _is_likely_secret ("DB_PASSWORD".data) = true from by decide]

/-! ## Claim C9 -/

/-- Test fixture: a single-container pod running the given image. -/
def imgPod (image : Str) : Pod :=
  { metadata := { name := ("demo".data), ns := ("default".data) },
    spec :=
      { containers :=
          [{ name := ("app".data), image := image, security_context := none,
             resources := none, env := none }],
        security_context := none } }

/-- C9: registry extraction follows the claim's description exactly (no `/`
gives docker.io, else the first segment when it holds `.` or `:`, else
docker.io); an image is trusted iff the extracted registry starts with some
trusted-list entry; the scan flags exactly the containers with untrusted
registries; `"myapp:1.0"` is untrusted (one MEDIUM finding) and
`"gcr.io/proj/app:1.0"` is trusted (no finding). -/
theorem c9_theorem :
    (∀ image, _extract_registry image = claimExtractRegistry image) ∧
    (∀ registry, _is_trusted_registry registry = true ↔
      ∃ trusted ∈ TRUSTED_REGISTRIES, startsWith registry trusted = true) ∧
    (∀ pod, imageRegistryScan pod =
      (pod.spec.containers.filter
        (fun c => !_is_trusted_registry (_extract_registry c.image))).map
        (fun c => _create_registry_finding pod.metadata.name pod.metadata.ns
          c.name c.image (_extract_registry c.image))) ∧
    (imageRegistryScan (imgPod ("myapp:1.0".data))).map (fun f => f.severity) =
      [S_MEDIUM] ∧
    _extract_registry ("myapp:1.0".data) = ("docker.io".data) ∧
    _is_trusted_registry ("docker.io".data) = false ∧
    imageRegistryScan (imgPod ("gcr.io/proj/app:1.0".data)) = [] := by
  refine ⟨?_, ?_, ?_, by decide, by decide, by decide, by decide⟩
  · intro image
    unfold _extract_registry claimExtractRegistry
    by_cases h : (splitOnChar '/' image).length = 1
    · rw [if_pos h]
      have hc : image.contains '/' = false :=
        (splitOnChar_length_one_iff '/' image).mp h
      rw [if_pos (show (!image.contains '/') = true by rw [hc]; rfl)]
    · rw [if_neg h]
      have hc : image.contains '/' = true := by
        cases hx : image.contains '/' with
        | false => exact absurd ((splitOnChar_length_one_iff '/' image).mpr hx) h
        | true => rfl
      rw [if_neg (show ¬(!image.contains '/') = true by rw [hc]; simp)]
  · intro registry
    unfold _is_trusted_registry
    exact List.any_eq_true
  · intro pod
    show (pod.spec.containers.flatMap fun container =>
        if !_is_trusted_registry (_extract_registry container.image) then
          [_create_registry_finding pod.metadata.name pod.metadata.ns
            container.name container.image (_extract_registry container.image)]
        else []) = _
    rw [flatMap_guard_singleton]

/-! ## Claim C10 -/

/-- Every root-user finding is CRITICAL. -/
theorem rootUserScan_severity (pod : Pod) (f : Finding)
    (hf : f ∈ rootUserScan pod) : f.severity = S_CRITICAL := by
  simp only [rootUserScan, List.mem_flatMap] at hf
  obtain ⟨c, _, hf⟩ := hf
  unfold rootUserCheckContainer at hf
  cases hsc : c.security_context with
  | none =>
    rw [hsc] at hf
    simp only [List.mem_singleton] at hf
    subst hf
    rfl
  | some sc =>
    rw [hsc] at hf
    dsimp only at hf
    split_ifs at hf <;> simp only [List.mem_singleton, List.not_mem_nil] at hf <;>
      (subst hf; rfl)

/-- Every privileged-mode finding is CRITICAL. -/
theorem privilegedScan_severity (pod : Pod) (f : Finding)
    (hf : f ∈ privilegedScan pod) : f.severity = S_CRITICAL := by
  simp only [privilegedScan, List.mem_flatMap] at hf
  obtain ⟨c, _, hf⟩ := hf
  cases hsc : c.security_context with
  | none => rw [hsc] at hf; simp at hf
  | some sc =>
    rw [hsc] at hf
    dsimp only at hf
    split_ifs at hf <;> simp only [List.mem_singleton, List.not_mem_nil] at hf
    subst hf
    rfl

/-- Every privilege-escalation finding is HIGH. -/
theorem privilegeEscalationScan_severity (pod : Pod) (f : Finding)
    (hf : f ∈ privilegeEscalationScan pod) : f.severity = S_HIGH := by
  simp only [privilegeEscalationScan, List.mem_flatMap] at hf
  obtain ⟨c, _, hf⟩ := hf
  cases hsc : c.security_context with
  | none =>
    rw [hsc] at hf
    simp only [List.mem_singleton] at hf
    subst hf
    rfl
  | some sc =>
    rw [hsc] at hf
    dsimp only at hf
    cases hape : sc.allow_privilege_escalation with
    | none =>
      rw [hape] at hf
      dsimp only at hf
      split_ifs at hf <;> simp only [List.mem_singleton] at hf <;> (subst hf; rfl)
    | some b =>
      rw [hape] at hf
      cases b with
      | true =>
        simp only [List.mem_singleton] at hf
        subst hf
        rfl
      | false => simp at hf

/-- Every writable-filesystem finding is MEDIUM. -/
theorem readOnlyFilesystemScan_severity (pod : Pod) (f : Finding)
    (hf : f ∈ readOnlyFilesystemScan pod) : f.severity = S_MEDIUM := by
  simp only [readOnlyFilesystemScan, List.mem_flatMap] at hf
  obtain ⟨c, _, hf⟩ := hf
  cases hsc : c.security_context with
  | none =>
    rw [hsc] at hf
    simp only [List.mem_singleton] at hf
    subst hf
    rfl
  | some sc =>
    rw [hsc] at hf
    dsimp only at hf
    split_ifs at hf <;> simp only [List.mem_singleton, List.not_mem_nil] at hf
    subst hf
    rfl

/-- Every missing-CPU-limit finding is HIGH. -/
theorem cpuLimitsScan_severity (pod : Pod) (f : Finding)
    (hf : f ∈ cpuLimitsScan pod) : f.severity = S_HIGH := by
  simp only [cpuLimitsScan, List.mem_flatMap] at hf
  obtain ⟨c, _, hf⟩ := hf
  cases hres : c.resources with
  | none =>
    rw [hres] at hf
    simp only [List.mem_singleton] at hf
    subst hf
    rfl
  | some res =>
    rw [hres] at hf
    dsimp only at hf
    cases hlim : res.limits with
    | none =>
      rw [hlim] at hf
      simp only [List.mem_singleton] at hf
      subst hf
      rfl
    | some limits =>
      rw [hlim] at hf
      dsimp only at hf
      split_ifs at hf <;> simp only [List.mem_singleton, List.not_mem_nil] at hf <;>
        (subst hf; rfl)

/-- Every missing-memory-limit finding is HIGH. -/
theorem memoryLimitsScan_severity (pod : Pod) (f : Finding)
    (hf : f ∈ memoryLimitsScan pod) : f.severity = S_HIGH := by
  simp only [memoryLimitsScan, List.mem_flatMap] at hf
  obtain ⟨c, _, hf⟩ := hf
  cases hres : c.resources with
  | none =>
    rw [hres] at hf
    simp only [List.mem_singleton] at hf
    subst hf
    rfl
  | some res =>
    rw [hres] at hf
    dsimp only at hf
    cases hlim : res.limits with
    | none =>
      rw [hlim] at hf
      simp only [List.mem_singleton] at hf
      subst hf
      rfl
    | some limits =>
      rw [hlim] at hf
      dsimp only at hf
      split_ifs at hf <;> simp only [List.mem_singleton, List.not_mem_nil] at hf <;>
        (subst hf; rfl)

/-- Every missing-resource-requests finding is MEDIUM. -/
theorem resourceRequestsScan_severity (pod : Pod) (f : Finding)
    (hf : f ∈ resourceRequestsScan pod) : f.severity = S_MEDIUM := by
  simp only [resourceRequestsScan, List.mem_flatMap] at hf
  obtain ⟨c, _, hf⟩ := hf
  split_ifs at hf <;> simp only [List.mem_singleton, List.not_mem_nil] at hf
  subst hf
  rfl

/-- Every latest-tag finding is MEDIUM. -/
theorem latestTagScan_severity (pod : Pod) (f : Finding)
    (hf : f ∈ latestTagScan pod) : f.severity = S_MEDIUM := by
  simp only [latestTagScan, List.mem_flatMap] at hf
  obtain ⟨c, _, hf⟩ := hf
  split_ifs at hf <;> simp only [List.mem_singleton, List.not_mem_nil] at hf
  subst hf
  rfl

/-- Every untagged-image finding is MEDIUM. -/
theorem untaggedImageScan_severity (pod : Pod) (f : Finding)
    (hf : f ∈ untaggedImageScan pod) : f.severity = S_MEDIUM := by
  simp only [untaggedImageScan, List.mem_flatMap] at hf
  obtain ⟨c, _, hf⟩ := hf
  split_ifs at hf <;> simp only [List.mem_singleton, List.not_mem_nil] at hf
  subst hf
  rfl

/-- Every untrusted-registry finding is MEDIUM. -/
theorem imageRegistryScan_severity (pod : Pod) (f : Finding)
    (hf : f ∈ imageRegistryScan pod) : f.severity = S_MEDIUM := by
  simp only [imageRegistryScan, List.mem_flatMap] at hf
  obtain ⟨c, _, hf⟩ := hf
  split_ifs at hf <;> simp only [List.mem_singleton, List.not_mem_nil] at hf
  subst hf
  rfl

/-- C10: every finding the registered catalog produces carries one of the
four canonical severities, and the scorer's weight table assigns it 15, 8,
3 or 1 points respectively. -/
theorem c10_theorem (pod : Pod) (f : Finding) (hf : f ∈ scan_pod pod) :
    (f.severity = S_CRITICAL ∧ dictGetD SEVERITY_WEIGHTS f.severity 1 = 15) ∨
    (f.severity = S_HIGH ∧ dictGetD SEVERITY_WEIGHTS f.severity 1 = 8) ∨
    (f.severity = S_MEDIUM ∧ dictGetD SEVERITY_WEIGHTS f.severity 1 = 3) ∨
    (f.severity = S_LOW ∧ dictGetD SEVERITY_WEIGHTS f.severity 1 = 1) := by
  have hexp : scan_pod pod =
      ((((((((([] ++ rootUserScan pod) ++ privilegedScan pod) ++
        privilegeEscalationScan pod) ++ readOnlyFilesystemScan pod) ++
        cpuLimitsScan pod) ++ memoryLimitsScan pod) ++
        resourceRequestsScan pod) ++ latestTagScan pod) ++
        untaggedImageScan pod) ++ imageRegistryScan pod := rfl
  rw [hexp] at hf
  simp only [List.mem_append, List.not_mem_nil, false_or] at hf
  rcases hf with (((((((((h | h) | h) | h) | h) | h) | h) | h) | h) | h)
  · have hs := rootUserScan_severity pod f h
    exact Or.inl ⟨hs, by rw [hs]; decide⟩
  · have hs := privilegedScan_severity pod f h
    exact Or.inl ⟨hs, by rw [hs]; decide⟩
  · have hs := privilegeEscalationScan_severity pod f h
    exact Or.inr (Or.inl ⟨hs, by rw [hs]; decide⟩)
  · have hs := readOnlyFilesystemScan_severity pod f h
    exact Or.inr (Or.inr (Or.inl ⟨hs, by rw [hs]; decide⟩))
  · have hs := cpuLimitsScan_severity pod f h
    exact Or.inr (Or.inl ⟨hs, by rw [hs]; decide⟩)
  · have hs := memoryLimitsScan_severity pod f h
    exact Or.inr (Or.inl ⟨hs, by rw [hs]; decide⟩)
  · have hs := resourceRequestsScan_severity pod f h
    exact Or.inr (Or.inr (Or.inl ⟨hs, by rw [hs]; decide⟩))
  · have hs := latestTagScan_severity pod f h
    exact Or.inr (Or.inr (Or.inl ⟨hs, by rw [hs]; decide⟩))
  · have hs := untaggedImageScan_severity pod f h
    exact Or.inr (Or.inr (Or.inl ⟨hs, by rw [hs]; decide⟩))
  · have hs := imageRegistryScan_severity pod f h
    exact Or.inr (Or.inr (Or.inl ⟨hs, by rw [hs]; decide⟩))

/-- Witness for C10: the no-security-context root finding of a concrete
single-container pod, weighted 15 as a CRITICAL finding. -/
theorem c10_witness :
    ((_create_root_finding ("demo".data) ("default".data) ("app".data)
        ("No security context defined (defaults to root)".data)).severity =
          S_CRITICAL ∧
      dictGetD SEVERITY_WEIGHTS
        (_create_root_finding ("demo".data) ("default".data) ("app".data)
          ("No security context defined (defaults to root)".data)).severity 1 =
          15) ∨
    ((_create_root_finding ("demo".data) ("default".data) ("app".data)
        ("No security context defined (defaults to root)".data)).severity =
          S_HIGH ∧
      dictGetD SEVERITY_WEIGHTS
        (_create_root_finding ("demo".data) ("default".data) ("app".data)
          ("No security context defined (defaults to root)".data)).severity 1 =
          8) ∨
    ((_create_root_finding ("demo".data) ("default".data) ("app".data)
        ("No security context defined (defaults to root)".data)).severity =
          S_MEDIUM ∧
      dictGetD SEVERITY_WEIGHTS
        (_create_root_finding ("demo".data) ("default".data) ("app".data)
          ("No security context defined (defaults to root)".data)).severity 1 =
          3) ∨
    ((_create_root_finding ("demo".data) ("default".data) ("app".data)
        ("No security context defined (defaults to root)".data)).severity =
          S_LOW ∧
      dictGetD SEVERITY_WEIGHTS
        (_create_root_finding ("demo".data) ("default".data) ("app".data)
          ("No security context defined (defaults to root)".data)).severity 1 =
          1) :=
  c10_theorem (imgPod ("gcr.io/p/app:1.0".data))
    (_create_root_finding ("demo".data) ("default".data) ("app".data)
      ("No security context defined (defaults to root)".data))
    (by decide)
